import Mathlib

/-!
Verification development for the SimpleMove ride-hailing storage core
(`server/storage.ts` together with the entity schema in `shared/schema.ts`).

The in-memory `MemStorage` class is embedded shallowly:

* JavaScript `Map<number, T>` collections become association lists
  `List (Nat × T)` in insertion order; `Map.set` replaces the entry in
  place when the key exists and appends otherwise, which is exactly the
  JavaScript semantics (insertion order is preserved on overwrite).
* `Date` values become `Nat` instants; every mutating operation takes the
  current instant `now` as an explicit argument.
* `throw new Error(...)` becomes an `Except Err` result paired with the
  store that results from the call (the store component equals the input
  store whenever the source throws before mutating, which is checked by
  the all-or-nothing theorems rather than assumed).
* Nullable / absent fields (`driverId`, the timestamp columns, ...)
  become `Option` fields.  The `real` columns (coordinates, distance,
  fare) are never computed with, only stored and copied, so they are
  carried as `Option Int`.

`insertRideSchema` omits `id` and the five timestamp columns but keeps
every other ride column — including `driverId` and `status` — optional,
so `InsertRide` below carries them; `createRide` overrides `status` but
spreads `driverId` through, faithfully to the source.
-/

namespace SimpleMove

/-- A ride record, mirroring the `rides` table of `shared/schema.ts`. -/
structure Ride where
  id : Nat
  passengerId : Option Nat
  driverId : Option Nat
  originAddress : String
  destinationAddress : String
  originLat : Option Int
  originLng : Option Int
  destinationLat : Option Int
  destinationLng : Option Int
  status : String
  requestedAt : Option Nat
  acceptedAt : Option Nat
  startedAt : Option Nat
  completedAt : Option Nat
  cancelledAt : Option Nat
  distance : Option Int
  duration : Option Int
  fare : Option Int
  vehicleType : Option String
  paymentMethod : Option String
  deriving DecidableEq, Repr

/-- Ride-creation payload, mirroring `insertRideSchema` (`rides` minus
`id` and the five timestamp columns; `driverId` and `status` remain). -/
structure InsertRide where
  passengerId : Option Nat
  driverId : Option Nat
  originAddress : String
  destinationAddress : String
  originLat : Option Int
  originLng : Option Int
  destinationLat : Option Int
  destinationLng : Option Int
  status : Option String
  distance : Option Int
  duration : Option Int
  fare : Option Int
  vehicleType : Option String
  paymentMethod : Option String
  deriving DecidableEq, Repr

/-- A user record, mirroring the `users` table. -/
structure User where
  id : Nat
  username : String
  password : String
  fullName : String
  email : String
  phone : Option String
  profilePicture : Option String
  userType : Option String
  createdAt : Option Nat
  language : Option String
  isOnline : Option Bool
  deriving DecidableEq, Repr

/-- User-creation payload, mirroring `insertUserSchema`. -/
structure InsertUser where
  username : String
  password : String
  fullName : String
  email : String
  phone : Option String
  profilePicture : Option String
  userType : Option String
  language : Option String
  isOnline : Option Bool
  deriving DecidableEq, Repr

/-- Failure taxonomy of the storage core (spec §7): each `throw` in
`storage.ts` is one of these. -/
inductive Err where
  | notFound
  | invalidTransition
  | alreadyActive
  deriving DecidableEq, Repr

/-- The `MemStorage` state: the collections the verified claims touch
(`usersMap`, `ridesMap`) with their id counters.  Association lists keep
JavaScript `Map` insertion order. -/
structure Store where
  users : List (Nat × User)
  rides : List (Nat × Ride)
  userIdCounter : Nat
  rideIdCounter : Nat
  deriving DecidableEq, Repr

/-- Embeds `Map.get`: first entry with the key (keys are unique in reachable
stores, and `find?` matches JavaScript lookup regardless). -/
def lookupA {α : Type} (l : List (Nat × α)) (k : Nat) : Option α :=
  (l.find? (fun p => p.1 == k)).map (fun p => p.2)

/-- Embeds `Map.set`: replace the first entry carrying the key in place,
or append a fresh entry at the end. -/
def setA {α : Type} : List (Nat × α) → Nat → α → List (Nat × α)
  | [], k, v => [(k, v)]
  | (k', v') :: t, k, v =>
      if k' == k then (k, v) :: t else (k', v') :: setA t k v

/-- Embeds `Array.from(map.values())`: the values in insertion order. -/
def valuesA {α : Type} (l : List (Nat × α)) : List α :=
  l.map (fun p => p.2)

/-- The store with empty collections and all counters at 1, i.e. the
`MemStorage` constructor state just before the demo user is seeded. -/
def emptyStore : Store :=
  { users := [], rides := [], userIdCounter := 1, rideIdCounter := 1 }

/-- Embeds `MemStorage.createUser`. -/
def createUser (s : Store) (now : Nat) (d : InsertUser) : User × Store :=
  let id := s.userIdCounter
  let user : User :=
    { id := id, username := d.username, password := d.password,
      fullName := d.fullName, email := d.email, phone := d.phone,
      profilePicture := d.profilePicture, userType := d.userType,
      createdAt := some now, language := d.language, isOnline := d.isOnline }
  (user, { s with users := setA s.users id user, userIdCounter := id + 1 })

/-- The demo user seeded by the `MemStorage` constructor. -/
def seedUser : InsertUser :=
  { username := "test",
    password := "$2a$10$3Nh1O1pFQTspJZJKi4RhwOsqLu9FwfIuEzLOYX5Nb9hU11Vrf0Siy.salt",
    fullName := "Test User", email := "test@example.com",
    phone := some "555-1234", profilePicture := some "",
    userType := some "passenger", language := some "pt",
    isOnline := some false }

/-- The state of a freshly constructed `MemStorage`: counters start at 1
and the constructor immediately creates the demo user. -/
def initStore : Store := (createUser emptyStore 0 seedUser).2

/-- Embeds `MemStorage.getUser`. -/
def getUser (s : Store) (id : Nat) : Option User :=
  lookupA s.users id

/-- Embeds `MemStorage.getUserByUsername`. -/
def getUserByUsername (s : Store) (username : String) : Option User :=
  (valuesA s.users).find? (fun u => u.username == username)

/-- The non-terminal statuses `['requested', 'accepted', 'in_progress']`. -/
def activeStatuses : List String := ["requested", "accepted", "in_progress"]

/-- The driver-side active statuses `['accepted', 'in_progress']`. -/
def driverActiveStatuses : List String := ["accepted", "in_progress"]

/-- Embeds `MemStorage.getRide`. -/
def getRide (s : Store) (id : Nat) : Option Ride :=
  lookupA s.rides id

/-- Embeds `MemStorage.getActiveRideForUser`. -/
def getActiveRideForUser (s : Store) (userId : Nat) : Option Ride :=
  (valuesA s.rides).find? (fun r =>
    (r.passengerId == some userId || r.driverId == some userId) &&
      activeStatuses.contains r.status)

/-- Embeds `MemStorage.getDriverActiveRide`. -/
def getDriverActiveRide (s : Store) (driverId : Nat) : Option Ride :=
  (valuesA s.rides).find? (fun r =>
    r.driverId == some driverId && driverActiveStatuses.contains r.status)

/-- Embeds `MemStorage.getPassengerActiveRide`. -/
def getPassengerActiveRide (s : Store) (passengerId : Nat) : Option Ride :=
  (valuesA s.rides).find? (fun r =>
    r.passengerId == some passengerId && activeStatuses.contains r.status)

/-- Sort key used by `getUserRides`: `requestedAt?.getTime() || 0`. -/
def requestedKey (r : Ride) : Nat := r.requestedAt.getD 0

/-- The filter of `getUserRides`:
`ride.passengerId === userId || ride.driverId === userId`. -/
def userParticipates (userId : Nat) (r : Ride) : Bool :=
  r.passengerId == some userId || r.driverId == some userId

/-- The comparator of `getUserRides`: `(a, b) => bDate - aDate` orders a
pair `a` before `b` exactly when `b`'s key is at most `a`'s. -/
def byRequestedDesc (a b : Ride) : Bool :=
  requestedKey b ≤ requestedKey a

/-- Embeds `MemStorage.getUserRides`: filter the user's rides, sort most recent
first (JavaScript `sort` is stable; `mergeSort` is the stable sort), and
truncate to `limit` (the callers' default is 10). -/
def getUserRides (s : Store) (userId : Nat) (limit : Nat) : List Ride :=
  (List.mergeSort
    ((valuesA s.rides).filter (userParticipates userId))
    byRequestedDesc).take limit

/-- Embeds `MemStorage.createRide`.  The guard calls
`getPassengerActiveRide(rideData.passengerId!)`; when the payload carries
no passenger id the scan compares stored ids against `undefined` and
finds nothing. -/
def newRideOf (s : Store) (now : Nat) (d : InsertRide) : Ride :=
  { id := s.rideIdCounter, passengerId := d.passengerId,
    driverId := d.driverId,
    originAddress := d.originAddress,
    destinationAddress := d.destinationAddress,
    originLat := d.originLat, originLng := d.originLng,
    destinationLat := d.destinationLat,
    destinationLng := d.destinationLng,
    status := "requested", requestedAt := some now,
    acceptedAt := none, startedAt := none,
    completedAt := none, cancelledAt := none,
    distance := d.distance, duration := d.duration, fare := d.fare,
    vehicleType := d.vehicleType, paymentMethod := d.paymentMethod }

/-- The passenger guard as `createRide` evaluates it:
`getPassengerActiveRide(rideData.passengerId!)` — a payload without a
passenger id matches no stored ride. -/
def createGuard (s : Store) (d : InsertRide) : Option Ride :=
  match d.passengerId with
  | some p => getPassengerActiveRide s p
  | none => none

def createRide (s : Store) (now : Nat) (d : InsertRide) :
    Except Err Ride × Store :=
  match createGuard s d with
  | some _ => (Except.error Err.alreadyActive, s)
  | none =>
      let ride := newRideOf s now d
      (Except.ok ride,
        { s with rides := setA s.rides s.rideIdCounter ride,
                 rideIdCounter := s.rideIdCounter + 1 })

/-- The record update `acceptRide` writes. -/
def acceptedRideOf (r : Ride) (now driverId : Nat) : Ride :=
  { r with driverId := some driverId,
           status := "accepted", acceptedAt := some now }

/-- The record update `declineRide` and `cancelRide` write. -/
def cancelledRideOf (r : Ride) (now : Nat) : Ride :=
  { r with status := "cancelled", cancelledAt := some now }

/-- The record update `startRide` writes. -/
def startedRideOf (r : Ride) (now : Nat) : Ride :=
  { r with status := "in_progress", startedAt := some now }

/-- The record update `completeRide` writes. -/
def completedRideOf (r : Ride) (now : Nat) : Ride :=
  { r with status := "completed", completedAt := some now }

/-- Embeds `MemStorage.acceptRide`. -/
def acceptRide (s : Store) (now : Nat) (rideId driverId : Nat) :
    Except Err Ride × Store :=
  match getRide s rideId with
  | none => (Except.error Err.notFound, s)
  | some ride =>
      if ride.status ≠ "requested" then
        (Except.error Err.invalidTransition, s)
      else
        match getDriverActiveRide s driverId with
        | some _ => (Except.error Err.alreadyActive, s)
        | none =>
            let updated := acceptedRideOf ride now driverId
            (Except.ok updated, { s with rides := setA s.rides rideId updated })

/-- Embeds `MemStorage.declineRide`. -/
def declineRide (s : Store) (now : Nat) (rideId : Nat) :
    Except Err Ride × Store :=
  match getRide s rideId with
  | none => (Except.error Err.notFound, s)
  | some ride =>
      if ride.status ≠ "requested" then
        (Except.error Err.invalidTransition, s)
      else
        let updated := cancelledRideOf ride now
        (Except.ok updated, { s with rides := setA s.rides rideId updated })

/-- Embeds `MemStorage.markDriverArrived`: a pure precondition check — the
source returns the stored ride and never writes. -/
def markDriverArrived (s : Store) (rideId : Nat) :
    Except Err Ride × Store :=
  match getRide s rideId with
  | none => (Except.error Err.notFound, s)
  | some ride =>
      if ride.status ≠ "accepted" then
        (Except.error Err.invalidTransition, s)
      else
        (Except.ok ride, s)

/-- Embeds `MemStorage.startRide`. -/
def startRide (s : Store) (now : Nat) (rideId : Nat) :
    Except Err Ride × Store :=
  match getRide s rideId with
  | none => (Except.error Err.notFound, s)
  | some ride =>
      if ride.status ≠ "accepted" then
        (Except.error Err.invalidTransition, s)
      else
        let updated := startedRideOf ride now
        (Except.ok updated, { s with rides := setA s.rides rideId updated })

/-- Embeds `MemStorage.completeRide`. -/
def completeRide (s : Store) (now : Nat) (rideId : Nat) :
    Except Err Ride × Store :=
  match getRide s rideId with
  | none => (Except.error Err.notFound, s)
  | some ride =>
      if ride.status ≠ "in_progress" then
        (Except.error Err.invalidTransition, s)
      else
        let updated := completedRideOf ride now
        (Except.ok updated, { s with rides := setA s.rides rideId updated })

/-- Embeds `MemStorage.cancelRide`. -/
def cancelRide (s : Store) (now : Nat) (rideId : Nat) :
    Except Err Ride × Store :=
  match getRide s rideId with
  | none => (Except.error Err.notFound, s)
  | some ride =>
      if ¬ activeStatuses.contains ride.status then
        (Except.error Err.invalidTransition, s)
      else
        let updated := cancelledRideOf ride now
        (Except.ok updated, { s with rides := setA s.rides rideId updated })

/-- The mutating storage commands a caller can issue. -/
inductive Op where
  | createUser (d : InsertUser)
  | createRide (d : InsertRide)
  | acceptRide (rideId driverId : Nat)
  | declineRide (rideId : Nat)
  | markDriverArrived (rideId : Nat)
  | startRide (rideId : Nat)
  | completeRide (rideId : Nat)
  | cancelRide (rideId : Nat)
  deriving DecidableEq, Repr

/-- Run one command at one instant; a command that throws leaves the
store the operation returned (which the all-or-nothing theorems show is
the input store). -/
def applyOp (now : Nat) (op : Op) (s : Store) : Store :=
  match op with
  | Op.createUser d => (createUser s now d).2
  | Op.createRide d => (createRide s now d).2
  | Op.acceptRide rideId driverId => (acceptRide s now rideId driverId).2
  | Op.declineRide rideId => (declineRide s now rideId).2
  | Op.markDriverArrived rideId => (markDriverArrived s rideId).2
  | Op.startRide rideId => (startRide s now rideId).2
  | Op.completeRide rideId => (completeRide s now rideId).2
  | Op.cancelRide rideId => (cancelRide s now rideId).2

/-- Run a trace of timestamped commands, oldest first. -/
def runOps (l : List (Nat × Op)) (s : Store) : Store :=
  l.foldl (fun s p => applyOp p.1 p.2 s) s

/-- Store states reachable from a freshly constructed `MemStorage` by
some sequence of commands at arbitrary instants. -/
def Reachable (s : Store) : Prop :=
  ∃ l : List (Nat × Op), s = runOps l initStore

/-- Predicate: `r` is an active (non-terminal) ride of user `u` as passenger. -/
def PassengerActive (u : Nat) (r : Ride) : Prop :=
  r.passengerId = some u ∧ r.status ∈ activeStatuses

/-- Predicate: `r` is an active ride of user `u` as driver. -/
def DriverActive (u : Nat) (r : Ride) : Prop :=
  r.driverId = some u ∧ r.status ∈ driverActiveStatuses

/-- Predicate: `r` is a non-terminal ride in which user `u` participates. -/
def ActiveForUser (u : Nat) (r : Ride) : Prop :=
  (r.passengerId = some u ∨ r.driverId = some u) ∧ r.status ∈ activeStatuses

instance (u : Nat) (r : Ride) : Decidable (PassengerActive u r) := by
  unfold PassengerActive; infer_instance

instance (u : Nat) (r : Ride) : Decidable (DriverActive u r) := by
  unfold DriverActive; infer_instance

instance (u : Nat) (r : Ride) : Decidable (ActiveForUser u r) := by
  unfold ActiveForUser; infer_instance

section AssocLemmas

variable {α : Type}

theorem lookupA_nil (k : Nat) : lookupA ([] : List (Nat × α)) k = none := rfl

theorem lookupA_cons_self (k : Nat) (v : α) (t : List (Nat × α)) :
    lookupA ((k, v) :: t) k = some v := by
  unfold lookupA
  rw [List.find?_cons_of_pos]
  · rfl
  · simp

theorem lookupA_cons_ne {k₀ k : Nat} (v₀ : α) (t : List (Nat × α))
    (h : k₀ ≠ k) : lookupA ((k₀, v₀) :: t) k = lookupA t k := by
  unfold lookupA
  rw [List.find?_cons_of_neg]
  simpa using h

theorem lookupA_setA_self (l : List (Nat × α)) (k : Nat) (v : α) :
    lookupA (setA l k v) k = some v := by
  induction l with
  | nil => simp [setA, lookupA_cons_self]
  | cons p t ih =>
      obtain ⟨k', v'⟩ := p
      by_cases h : k' = k
      · simp [setA, h, lookupA_cons_self]
      · simp only [setA, beq_iff_eq, h, if_false]
        rw [lookupA_cons_ne v' _ h]
        exact ih

theorem lookupA_setA_ne (l : List (Nat × α)) (k k' : Nat) (v : α)
    (h : k' ≠ k) : lookupA (setA l k v) k' = lookupA l k' := by
  induction l with
  | nil => simp [setA, lookupA_cons_ne v _ (Ne.symm h), lookupA_nil]
  | cons p t ih =>
      obtain ⟨k₀, v₀⟩ := p
      by_cases h₀ : k₀ = k
      · subst h₀
        simp only [setA, beq_iff_eq, if_true]
        rw [lookupA_cons_ne v _ (Ne.symm h), lookupA_cons_ne v₀ _ (Ne.symm h)]
      · simp only [setA, beq_iff_eq, h₀, if_false]
        by_cases h₁ : k₀ = k'
        · subst h₁
          rw [lookupA_cons_self, lookupA_cons_self]
        · rw [lookupA_cons_ne v₀ _ h₁, lookupA_cons_ne v₀ _ h₁]
          exact ih

theorem mem_setA {l : List (Nat × α)} {k : Nat} {v : α} {p : Nat × α}
    (h : p ∈ setA l k v) : p = (k, v) ∨ p ∈ l := by
  induction l with
  | nil => simpa [setA] using h
  | cons q t ih =>
      obtain ⟨k₀, v₀⟩ := q
      by_cases h₀ : k₀ = k
      · simp only [setA, beq_iff_eq, h₀, if_true] at h
        rcases List.mem_cons.mp h with h | h
        · exact Or.inl h
        · exact Or.inr (List.mem_cons_of_mem _ h)
      · simp only [setA, beq_iff_eq, h₀, if_false] at h
        rcases List.mem_cons.mp h with h | h
        · exact Or.inr (h ▸ List.mem_cons_self _ _)
        · rcases ih h with h | h
          · exact Or.inl h
          · exact Or.inr (List.mem_cons_of_mem _ h)

theorem lookupA_mem {l : List (Nat × α)} {k : Nat} {v : α}
    (h : lookupA l k = some v) : (k, v) ∈ l := by
  unfold lookupA at h
  rcases ho : l.find? (fun p => p.1 == k) with _ | p
  · simp [ho] at h
  · have hm := List.mem_of_find?_eq_some ho
    have hp := List.find?_some ho
    obtain ⟨k₀, v₀⟩ := p
    simp only [beq_iff_eq] at hp
    simp only [ho, Option.map_some] at h
    cases h
    exact hp ▸ hm

theorem lookupA_eq_none {l : List (Nat × α)} {k : Nat}
    (h : lookupA l k = none) : ∀ p ∈ l, p.1 ≠ k := by
  intro p hp
  unfold lookupA at h
  rcases ho : l.find? (fun q => q.1 == k) with _ | q
  · have := List.find?_eq_none.mp ho p hp
    simpa using this
  · simp [ho] at h

theorem setA_fresh {l : List (Nat × α)} {k : Nat} (v : α)
    (h : lookupA l k = none) : setA l k v = l ++ [(k, v)] := by
  induction l with
  | nil => simp [setA]
  | cons p t ih =>
      obtain ⟨k₀, v₀⟩ := p
      have hk : k₀ ≠ k := lookupA_eq_none h (k₀, v₀) (List.mem_cons_self _ _)
      have ht : lookupA t k = none := by
        rw [lookupA_cons_ne v₀ t hk] at h
        exact h
      simp [setA, beq_iff_eq, hk, ih ht]

end AssocLemmas

theorem mem_iff_containsList {α : Type} [BEq α] [LawfulBEq α]
    (l : List α) (a : α) : a ∈ l ↔ l.contains a = true := by
  simp [List.contains]

theorem passengerActive_iff (p : Nat) (r : Ride) :
    (r.passengerId == some p && activeStatuses.contains r.status) = true ↔
      PassengerActive p r := by
  simp [PassengerActive]

theorem driverActive_iff (d : Nat) (r : Ride) :
    (r.driverId == some d && driverActiveStatuses.contains r.status) = true ↔
      DriverActive d r := by
  simp [DriverActive]

/-- The passenger guard finds nothing exactly when the user has no
active ride as passenger anywhere in the store. -/
theorem getPassengerActiveRide_eq_none (s : Store) (p : Nat) :
    getPassengerActiveRide s p = none ↔
      ∀ r ∈ valuesA s.rides, ¬ PassengerActive p r := by
  unfold getPassengerActiveRide
  rw [List.find?_eq_none]
  constructor
  · intro h r hr hact
    exact h r hr ((passengerActive_iff p r).mpr hact)
  · intro h r hr hb
    exact h r hr ((passengerActive_iff p r).mp hb)

/-- The driver guard finds nothing exactly when the user has no active
ride as driver anywhere in the store. -/
theorem getDriverActiveRide_eq_none (s : Store) (d : Nat) :
    getDriverActiveRide s d = none ↔
      ∀ r ∈ valuesA s.rides, ¬ DriverActive d r := by
  unfold getDriverActiveRide
  rw [List.find?_eq_none]
  constructor
  · intro h r hr hact
    exact h r hr ((driverActive_iff d r).mpr hact)
  · intro h r hr hb
    exact h r hr ((driverActive_iff d r).mp hb)

/-! ### Case analysis of each lifecycle operation -/

/-- Lemma: `createRide` either rejects an already-active passenger without
touching the store, or stores the fresh ride under the next id. -/
theorem createRide_cases (s : Store) (now : Nat) (d : InsertRide) :
    ((∃ r₀, createGuard s d = some r₀) ∧
      createRide s now d = (Except.error Err.alreadyActive, s)) ∨
    (createGuard s d = none ∧
      createRide s now d = (Except.ok (newRideOf s now d),
        { s with rides := setA s.rides s.rideIdCounter (newRideOf s now d),
                 rideIdCounter := s.rideIdCounter + 1 })) := by
  unfold createRide
  rcases h : createGuard s d with _ | r₀
  · exact Or.inr ⟨rfl, rfl⟩
  · exact Or.inl ⟨⟨r₀, rfl⟩, rfl⟩

/-- The four branches of `acceptRide`. -/
theorem acceptRide_cases (s : Store) (now rideId driverId : Nat) :
    (getRide s rideId = none ∧
      acceptRide s now rideId driverId = (Except.error Err.notFound, s)) ∨
    (∃ ride, getRide s rideId = some ride ∧ ride.status ≠ "requested" ∧
      acceptRide s now rideId driverId =
        (Except.error Err.invalidTransition, s)) ∨
    (∃ ride r₀, getRide s rideId = some ride ∧ ride.status = "requested" ∧
      getDriverActiveRide s driverId = some r₀ ∧
      acceptRide s now rideId driverId =
        (Except.error Err.alreadyActive, s)) ∨
    (∃ ride, getRide s rideId = some ride ∧ ride.status = "requested" ∧
      getDriverActiveRide s driverId = none ∧
      acceptRide s now rideId driverId =
        (Except.ok (acceptedRideOf ride now driverId),
         { s with
           rides := setA s.rides rideId (acceptedRideOf ride now driverId) })) := by
  unfold acceptRide
  rcases h : getRide s rideId with _ | ride
  · exact Or.inl ⟨rfl, rfl⟩
  · by_cases hst : ride.status = "requested"
    · rcases hg : getDriverActiveRide s driverId with _ | r₀
      · exact Or.inr (Or.inr (Or.inr ⟨ride, rfl, hst, rfl, by simp [hst]⟩))
      · exact Or.inr (Or.inr (Or.inl ⟨ride, r₀, rfl, hst, rfl, by simp [hst]⟩))
    · exact Or.inr (Or.inl ⟨ride, rfl, hst, by simp [hst]⟩)

/-- The three branches of `declineRide`. -/
theorem declineRide_cases (s : Store) (now rideId : Nat) :
    (getRide s rideId = none ∧
      declineRide s now rideId = (Except.error Err.notFound, s)) ∨
    (∃ ride, getRide s rideId = some ride ∧ ride.status ≠ "requested" ∧
      declineRide s now rideId = (Except.error Err.invalidTransition, s)) ∨
    (∃ ride, getRide s rideId = some ride ∧ ride.status = "requested" ∧
      declineRide s now rideId = (Except.ok (cancelledRideOf ride now),
        { s with rides := setA s.rides rideId (cancelledRideOf ride now) })) := by
  unfold declineRide
  rcases h : getRide s rideId with _ | ride
  · exact Or.inl ⟨rfl, rfl⟩
  · by_cases hst : ride.status = "requested"
    · exact Or.inr (Or.inr ⟨ride, rfl, hst, by simp [hst]⟩)
    · exact Or.inr (Or.inl ⟨ride, rfl, hst, by simp [hst]⟩)

/-- The three branches of `markDriverArrived`; no branch writes. -/
theorem markDriverArrived_cases (s : Store) (rideId : Nat) :
    (getRide s rideId = none ∧
      markDriverArrived s rideId = (Except.error Err.notFound, s)) ∨
    (∃ ride, getRide s rideId = some ride ∧ ride.status ≠ "accepted" ∧
      markDriverArrived s rideId = (Except.error Err.invalidTransition, s)) ∨
    (∃ ride, getRide s rideId = some ride ∧ ride.status = "accepted" ∧
      markDriverArrived s rideId = (Except.ok ride, s)) := by
  unfold markDriverArrived
  rcases h : getRide s rideId with _ | ride
  · exact Or.inl ⟨rfl, rfl⟩
  · by_cases hst : ride.status = "accepted"
    · exact Or.inr (Or.inr ⟨ride, rfl, hst, by simp [hst]⟩)
    · exact Or.inr (Or.inl ⟨ride, rfl, hst, by simp [hst]⟩)

/-- The three branches of `startRide`. -/
theorem startRide_cases (s : Store) (now rideId : Nat) :
    (getRide s rideId = none ∧
      startRide s now rideId = (Except.error Err.notFound, s)) ∨
    (∃ ride, getRide s rideId = some ride ∧ ride.status ≠ "accepted" ∧
      startRide s now rideId = (Except.error Err.invalidTransition, s)) ∨
    (∃ ride, getRide s rideId = some ride ∧ ride.status = "accepted" ∧
      startRide s now rideId = (Except.ok (startedRideOf ride now),
        { s with rides := setA s.rides rideId (startedRideOf ride now) })) := by
  unfold startRide
  rcases h : getRide s rideId with _ | ride
  · exact Or.inl ⟨rfl, rfl⟩
  · by_cases hst : ride.status = "accepted"
    · exact Or.inr (Or.inr ⟨ride, rfl, hst, by simp [hst]⟩)
    · exact Or.inr (Or.inl ⟨ride, rfl, hst, by simp [hst]⟩)

/-- The three branches of `completeRide`. -/
theorem completeRide_cases (s : Store) (now rideId : Nat) :
    (getRide s rideId = none ∧
      completeRide s now rideId = (Except.error Err.notFound, s)) ∨
    (∃ ride, getRide s rideId = some ride ∧ ride.status ≠ "in_progress" ∧
      completeRide s now rideId = (Except.error Err.invalidTransition, s)) ∨
    (∃ ride, getRide s rideId = some ride ∧ ride.status = "in_progress" ∧
      completeRide s now rideId = (Except.ok (completedRideOf ride now),
        { s with rides := setA s.rides rideId (completedRideOf ride now) })) := by
  unfold completeRide
  rcases h : getRide s rideId with _ | ride
  · exact Or.inl ⟨rfl, rfl⟩
  · by_cases hst : ride.status = "in_progress"
    · exact Or.inr (Or.inr ⟨ride, rfl, hst, by simp [hst]⟩)
    · exact Or.inr (Or.inl ⟨ride, rfl, hst, by simp [hst]⟩)

/-- The three branches of `cancelRide`. -/
theorem cancelRide_cases (s : Store) (now rideId : Nat) :
    (getRide s rideId = none ∧
      cancelRide s now rideId = (Except.error Err.notFound, s)) ∨
    (∃ ride, getRide s rideId = some ride ∧
      ride.status ∉ activeStatuses ∧
      cancelRide s now rideId = (Except.error Err.invalidTransition, s)) ∨
    (∃ ride, getRide s rideId = some ride ∧ ride.status ∈ activeStatuses ∧
      cancelRide s now rideId = (Except.ok (cancelledRideOf ride now),
        { s with rides := setA s.rides rideId (cancelledRideOf ride now) })) := by
  unfold cancelRide
  rcases h : getRide s rideId with _ | ride
  · exact Or.inl ⟨rfl, rfl⟩
  · by_cases hb : activeStatuses.contains ride.status
    · have hm : ride.status ∈ activeStatuses := (mem_iff_containsList _ _).mpr hb
      exact Or.inr (Or.inr ⟨ride, rfl, hm, by simp [hm]⟩)
    · have hm : ride.status ∉ activeStatuses :=
        fun hx => hb ((mem_iff_containsList _ _).mp hx)
      exact Or.inr (Or.inl ⟨ride, rfl, hm, by simp [hm]⟩)

/-! ### Claim C5: failed operations leave the store untouched -/

/-- Claim C5 (error_handling).  Every ride lifecycle operation is
all-or-nothing: whenever `createRide`, `acceptRide`, `declineRide`,
`markDriverArrived`, `startRide`, `completeRide` or `cancelRide` fails
for any reason (`NotFound`, `InvalidTransition`, `AlreadyActive`), the
store after the failed call is identical to the store before it. -/
theorem C5_failure_leaves_store_unchanged (s : Store) (now : Nat) :
    (∀ d e, (createRide s now d).1 = Except.error e →
      (createRide s now d).2 = s) ∧
    (∀ i j e, (acceptRide s now i j).1 = Except.error e →
      (acceptRide s now i j).2 = s) ∧
    (∀ i e, (declineRide s now i).1 = Except.error e →
      (declineRide s now i).2 = s) ∧
    (∀ i e, (markDriverArrived s i).1 = Except.error e →
      (markDriverArrived s i).2 = s) ∧
    (∀ i e, (startRide s now i).1 = Except.error e →
      (startRide s now i).2 = s) ∧
    (∀ i e, (completeRide s now i).1 = Except.error e →
      (completeRide s now i).2 = s) ∧
    (∀ i e, (cancelRide s now i).1 = Except.error e →
      (cancelRide s now i).2 = s) := by
  refine ⟨?_, ?_, ?_, ?_, ?_, ?_, ?_⟩
  · intro d e hfail
    rcases createRide_cases s now d with ⟨_, he⟩ | ⟨_, he⟩
    · rw [he]
    · rw [he] at hfail; cases hfail
  · intro i j e hfail
    rcases acceptRide_cases s now i j with
      ⟨_, he⟩ | ⟨_, _, _, he⟩ | ⟨_, _, _, _, _, he⟩ | ⟨_, _, _, _, he⟩ <;>
      rw [he] at hfail ⊢
    all_goals cases hfail
  · intro i e hfail
    rcases declineRide_cases s now i with
      ⟨_, he⟩ | ⟨_, _, _, he⟩ | ⟨_, _, _, he⟩ <;> rw [he] at hfail ⊢
    all_goals cases hfail
  · intro i e hfail
    rcases markDriverArrived_cases s i with
      ⟨_, he⟩ | ⟨_, _, _, he⟩ | ⟨_, _, _, he⟩ <;> rw [he] at hfail ⊢
  · intro i e hfail
    rcases startRide_cases s now i with
      ⟨_, he⟩ | ⟨_, _, _, he⟩ | ⟨_, _, _, he⟩ <;> rw [he] at hfail ⊢
    all_goals cases hfail
  · intro i e hfail
    rcases completeRide_cases s now i with
      ⟨_, he⟩ | ⟨_, _, _, he⟩ | ⟨_, _, _, he⟩ <;> rw [he] at hfail ⊢
    all_goals cases hfail
  · intro i e hfail
    rcases cancelRide_cases s now i with
      ⟨_, he⟩ | ⟨_, _, _, he⟩ | ⟨_, _, _, he⟩ <;> rw [he] at hfail ⊢
    all_goals cases hfail

/-- Witness for C5: accepting a ride absent from the fresh store fails
and leaves the store exactly as it was. -/
theorem C5_witness :
    (acceptRide initStore 0 1 1).1 = Except.error Err.notFound ∧
      (acceptRide initStore 0 1 1).2 = initStore :=
  ⟨rfl,
   (C5_failure_leaves_store_unchanged initStore 0).2.1 1 1 Err.notFound rfl⟩

/-- A minimal ride-request payload for a passenger, used by the concrete
example stores. -/
def payloadP (p : Nat) : InsertRide :=
  { passengerId := some p, driverId := none, originAddress := "Origin",
    destinationAddress := "Destination", originLat := none,
    originLng := none, destinationLat := none, destinationLng := none,
    status := none, distance := none, duration := none, fare := none,
    vehicleType := none, paymentMethod := none }

/-- A ride-request payload that also carries a driver id, which
`insertRideSchema` admits. -/
def payloadPD (p d : Nat) : InsertRide :=
  { payloadP p with driverId := some d }

/-- Example store: passenger 1 requested a ride at instant 5 and driver 9
accepted it at instant 6. -/
def c6Store : Store :=
  runOps [(5, Op.createRide (payloadP 1)), (6, Op.acceptRide 1 9)] initStore

/-! ### Claim C6: markDriverArrived is a pure precondition check -/

/-- Claim C6 (frame_effect).  `markDriverArrived(rideId)` changes no
state: it fails with `NotFound` when the ride is absent, fails with
`InvalidTransition` when the status is not `accepted`, and when the
status is `accepted` it returns the stored ride unchanged; in every
case the store is left identical. -/
theorem C6_markDriverArrived_no_state_change (s : Store) (rideId : Nat) :
    (markDriverArrived s rideId).2 = s ∧
    (getRide s rideId = none →
      (markDriverArrived s rideId).1 = Except.error Err.notFound) ∧
    (∀ r, getRide s rideId = some r → r.status ≠ "accepted" →
      (markDriverArrived s rideId).1 = Except.error Err.invalidTransition) ∧
    (∀ r, getRide s rideId = some r → r.status = "accepted" →
      (markDriverArrived s rideId).1 = Except.ok r) := by
  rcases markDriverArrived_cases s rideId with
    ⟨hg, he⟩ | ⟨r₀, hg, hst, he⟩ | ⟨r₀, hg, hst, he⟩
  · refine ⟨by rw [he], fun _ => by rw [he], ?_, ?_⟩
    · intro r hr
      rw [hg] at hr; cases hr
    · intro r hr
      rw [hg] at hr; cases hr
  · refine ⟨by rw [he], ?_, fun _ _ _ => by rw [he], ?_⟩
    · intro hnone
      rw [hg] at hnone; cases hnone
    · intro r hr hacc
      rw [hg] at hr
      cases hr
      exact absurd hacc hst
  · refine ⟨by rw [he], ?_, ?_, ?_⟩
    · intro hnone
      rw [hg] at hnone; cases hnone
    · intro r hr hne
      rw [hg] at hr
      cases hr
      exact absurd hst hne
    · intro r hr _
      rw [hg] at hr
      cases hr
      rw [he]

/-- Witness for C6 on the store holding one accepted ride. -/
theorem C6_witness :
    (markDriverArrived c6Store 1).2 = c6Store ∧
      (markDriverArrived c6Store 1).1 =
        Except.ok (acceptedRideOf (newRideOf initStore 5 (payloadP 1)) 6 9) :=
  ⟨(C6_markDriverArrived_no_state_change c6Store 1).1,
   (C6_markDriverArrived_no_state_change c6Store 1).2.2.2
     (acceptedRideOf (newRideOf initStore 5 (payloadP 1)) 6 9) rfl rfl⟩

/-! ### Claim C3: acceptRide succeeds exactly under its guard -/

/-- Claim C3 (functional_correctness).  `acceptRide(R, D)` succeeds iff
the ride exists, its status is `requested`, and `D` has no ride in
`{accepted, in_progress}`; on success it sets `driverId = D`,
`status = accepted`, `acceptedAt = now`, and a second `acceptRide` on
the same ride then fails with `InvalidTransition`. -/
theorem C3_acceptRide_success_iff (s : Store) (now now2 rideId driverId : Nat) :
    ((∃ r' s', acceptRide s now rideId driverId = (Except.ok r', s')) ↔
      ∃ r, getRide s rideId = some r ∧ r.status = "requested" ∧
        ∀ x ∈ valuesA s.rides, ¬ DriverActive driverId x) ∧
    (∀ r' s', acceptRide s now rideId driverId = (Except.ok r', s') →
      ∃ r, getRide s rideId = some r ∧
        r' = acceptedRideOf r now driverId ∧
        r'.driverId = some driverId ∧ r'.status = "accepted" ∧
        r'.acceptedAt = some now ∧
        ∀ d₂, (acceptRide s' now2 rideId d₂).1 =
          Except.error Err.invalidTransition) := by
  constructor
  · constructor
    · rintro ⟨r', s', hok⟩
      rcases acceptRide_cases s now rideId driverId with
        ⟨_, he⟩ | ⟨_, _, _, he⟩ | ⟨_, _, _, _, _, he⟩ | ⟨ride, hg, hst, hguard, he⟩
      · rw [he] at hok; simp at hok
      · rw [he] at hok; simp at hok
      · rw [he] at hok; simp at hok
      · exact ⟨ride, hg, hst,
          (getDriverActiveRide_eq_none s driverId).mp hguard⟩
    · rintro ⟨r, hg, hst, hall⟩
      rcases acceptRide_cases s now rideId driverId with
        ⟨hg0, _⟩ | ⟨ride, hg0, hne, _⟩ | ⟨ride, r₀, _, _, hdr, _⟩ |
        ⟨ride, _, _, _, he⟩
      · rw [hg] at hg0; cases hg0
      · rw [hg] at hg0; cases hg0; exact absurd hst hne
      · rw [(getDriverActiveRide_eq_none s driverId).mpr hall] at hdr
        cases hdr
      · exact ⟨_, _, he⟩
  · intro r' s' hok
    rcases acceptRide_cases s now rideId driverId with
      ⟨_, he⟩ | ⟨_, _, _, he⟩ | ⟨_, _, _, _, _, he⟩ | ⟨ride, hg, hst, hguard, he⟩
    · rw [he] at hok; simp at hok
    · rw [he] at hok; simp at hok
    · rw [he] at hok; simp at hok
    · rw [he] at hok
      injection hok with h1 h2
      injection h1 with h1
      subst h1
      subst h2
      have hlook : getRide { s with rides := setA s.rides rideId (acceptedRideOf ride now driverId) } rideId = some (acceptedRideOf ride now driverId) :=
        lookupA_setA_self s.rides rideId (acceptedRideOf ride now driverId)
      refine ⟨ride, hg, rfl, rfl, rfl, rfl, ?_⟩
      intro d₂
      rcases acceptRide_cases { s with rides := setA s.rides rideId (acceptedRideOf ride now driverId) } now2 rideId d₂ with
        ⟨hg2, _⟩ | ⟨ride2, hg2, hne2, he2⟩ | ⟨ride2, r₀2, hg2, hst2, _, _⟩ |
        ⟨ride2, hg2, hst2, _, _⟩
      · rw [hlook] at hg2; cases hg2
      · rw [he2]
      · rw [hlook] at hg2
        cases hg2
        simp [acceptedRideOf] at hst2
      · rw [hlook] at hg2
        cases hg2
        simp [acceptedRideOf] at hst2

/-- Example store: passenger 1 requested ride 1 at instant 5. -/
def c3Store : Store := runOps [(5, Op.createRide (payloadP 1))] initStore

/-- Witness for C3: on the one-requested-ride store, driver 9's accept
succeeds. -/
theorem C3_witness :
    ∃ r' s', acceptRide c3Store 7 1 9 = (Except.ok r', s') :=
  (C3_acceptRide_success_iff c3Store 7 8 1 9).1.mpr
    ⟨newRideOf initStore 5 (payloadP 1), rfl, rfl, by decide⟩

/-! ### Claim C9: successful transitions touch only their own fields -/

/-- The ride fields every lifecycle transition leaves untouched:
identity, participants' routing data, request time, and the
pricing/preference columns. -/
def SameCore (r' r : Ride) : Prop :=
  r'.id = r.id ∧ r'.passengerId = r.passengerId ∧
  r'.originAddress = r.originAddress ∧
  r'.destinationAddress = r.destinationAddress ∧
  r'.originLat = r.originLat ∧ r'.originLng = r.originLng ∧
  r'.destinationLat = r.destinationLat ∧
  r'.destinationLng = r.destinationLng ∧
  r'.requestedAt = r.requestedAt ∧
  r'.distance = r.distance ∧ r'.duration = r.duration ∧
  r'.fare = r.fare ∧ r'.vehicleType = r.vehicleType ∧
  r'.paymentMethod = r.paymentMethod

/-- Claim C9 (frame_effect, implicit).  Every successful ride transition
changes only the fields named in its effect — status, the one matching
timestamp, and `driverId` for `acceptRide`; the passenger, routing,
pricing fields and all previously set timestamps are preserved. -/
theorem C9_transitions_preserve_unrelated_fields (s : Store) (now : Nat)
    (rideId driverId : Nat) :
    (∀ r' s', acceptRide s now rideId driverId = (Except.ok r', s') →
      ∃ r, getRide s rideId = some r ∧ SameCore r' r ∧
        r'.startedAt = r.startedAt ∧ r'.completedAt = r.completedAt ∧
        r'.cancelledAt = r.cancelledAt) ∧
    (∀ r' s', declineRide s now rideId = (Except.ok r', s') →
      ∃ r, getRide s rideId = some r ∧ SameCore r' r ∧
        r'.driverId = r.driverId ∧ r'.acceptedAt = r.acceptedAt ∧
        r'.startedAt = r.startedAt ∧ r'.completedAt = r.completedAt) ∧
    (∀ r' s', startRide s now rideId = (Except.ok r', s') →
      ∃ r, getRide s rideId = some r ∧ SameCore r' r ∧
        r'.driverId = r.driverId ∧ r'.acceptedAt = r.acceptedAt ∧
        r'.completedAt = r.completedAt ∧ r'.cancelledAt = r.cancelledAt) ∧
    (∀ r' s', completeRide s now rideId = (Except.ok r', s') →
      ∃ r, getRide s rideId = some r ∧ SameCore r' r ∧
        r'.driverId = r.driverId ∧ r'.acceptedAt = r.acceptedAt ∧
        r'.startedAt = r.startedAt ∧ r'.cancelledAt = r.cancelledAt) ∧
    (∀ r' s', cancelRide s now rideId = (Except.ok r', s') →
      ∃ r, getRide s rideId = some r ∧ SameCore r' r ∧
        r'.driverId = r.driverId ∧ r'.acceptedAt = r.acceptedAt ∧
        r'.startedAt = r.startedAt ∧ r'.completedAt = r.completedAt) := by
  refine ⟨?_, ?_, ?_, ?_, ?_⟩
  · intro r' s' hok
    rcases acceptRide_cases s now rideId driverId with
      ⟨_, he⟩ | ⟨_, _, _, he⟩ | ⟨_, _, _, _, _, he⟩ | ⟨ride, hg, _, _, he⟩
    · rw [he] at hok; simp at hok
    · rw [he] at hok; simp at hok
    · rw [he] at hok; simp at hok
    · rw [he] at hok
      injection hok with h1 _
      injection h1 with h1
      subst h1
      exact ⟨ride, hg, by simp [SameCore, acceptedRideOf], by
        simp [acceptedRideOf]⟩
  · intro r' s' hok
    rcases declineRide_cases s now rideId with
      ⟨_, he⟩ | ⟨_, _, _, he⟩ | ⟨ride, hg, _, he⟩
    · rw [he] at hok; simp at hok
    · rw [he] at hok; simp at hok
    · rw [he] at hok
      injection hok with h1 _
      injection h1 with h1
      subst h1
      exact ⟨ride, hg, by simp [SameCore, cancelledRideOf], by
        simp [cancelledRideOf]⟩
  · intro r' s' hok
    rcases startRide_cases s now rideId with
      ⟨_, he⟩ | ⟨_, _, _, he⟩ | ⟨ride, hg, _, he⟩
    · rw [he] at hok; simp at hok
    · rw [he] at hok; simp at hok
    · rw [he] at hok
      injection hok with h1 _
      injection h1 with h1
      subst h1
      exact ⟨ride, hg, by simp [SameCore, startedRideOf], by
        simp [startedRideOf]⟩
  · intro r' s' hok
    rcases completeRide_cases s now rideId with
      ⟨_, he⟩ | ⟨_, _, _, he⟩ | ⟨ride, hg, _, he⟩
    · rw [he] at hok; simp at hok
    · rw [he] at hok; simp at hok
    · rw [he] at hok
      injection hok with h1 _
      injection h1 with h1
      subst h1
      exact ⟨ride, hg, by simp [SameCore, completedRideOf], by
        simp [completedRideOf]⟩
  · intro r' s' hok
    rcases cancelRide_cases s now rideId with
      ⟨_, he⟩ | ⟨_, _, _, he⟩ | ⟨ride, hg, _, he⟩
    · rw [he] at hok; simp at hok
    · rw [he] at hok; simp at hok
    · rw [he] at hok
      injection hok with h1 _
      injection h1 with h1
      subst h1
      exact ⟨ride, hg, by simp [SameCore, cancelledRideOf], by
        simp [cancelledRideOf]⟩

/-- Witness for C9: driver 9's accept of ride 1 in the one-ride store
keeps the untouched fields. -/
theorem C9_witness :
    ∃ r, getRide c3Store 1 = some r ∧
      SameCore (acceptedRideOf (newRideOf initStore 5 (payloadP 1)) 7 9) r ∧
      (acceptedRideOf (newRideOf initStore 5 (payloadP 1)) 7 9).startedAt =
        r.startedAt ∧
      (acceptedRideOf (newRideOf initStore 5 (payloadP 1)) 7 9).completedAt =
        r.completedAt ∧
      (acceptedRideOf (newRideOf initStore 5 (payloadP 1)) 7 9).cancelledAt =
        r.cancelledAt :=
  (C9_transitions_preserve_unrelated_fields c3Store 7 1 9).1
    (acceptedRideOf (newRideOf initStore 5 (payloadP 1)) 7 9)
    (acceptRide c3Store 7 1 9).2 rfl

/-! ### Claim C10: the constructor seeds a demo user with id 1 -/

/-- Claim C10 (functional_correctness, implicit).  A fresh store is not
empty: the constructor seeds the username `test`, consuming user id 1,
so `getUserByUsername("test")` succeeds, the first externally created
user receives id 2, and each `createUser` assigns the current counter
and bumps it by exactly 1. -/
theorem C10_seed_user_and_id_assignment :
    (∃ u, getUserByUsername initStore "test" = some u ∧ u.id = 1) ∧
    initStore.userIdCounter = 2 ∧
    (∀ now d, ((createUser initStore now d).1).id = 2) ∧
    (∀ s now d, ((createUser s now d).1).id = s.userIdCounter ∧
      ((createUser s now d).2).userIdCounter = s.userIdCounter + 1) := by
  refine ⟨⟨(createUser emptyStore 0 seedUser).1, by decide, by decide⟩,
    by decide, fun now d => rfl, fun s now d => ⟨rfl, rfl⟩⟩

/-! ### Claim C7: create/get round-trip

`insertRideSchema` omits only `id` and the timestamp columns, so a
create payload may carry a `driverId`, and `createRide` spreads it into
the stored ride.  The round-trip claim therefore fails as stated — the
new ride's `driverId` is whatever the payload carried — and holds once
the payload is required to carry none. -/

/-- Counterexample to claim C7 as stated: on the fresh store, passenger 1
has no active ride, yet `createRide` with a payload that also carries
`driverId = 9` stores a ride whose `driverId` is not null. -/
theorem C7_counterexample :
    ¬ (∀ (s : Store) (now : Nat) (d : InsertRide) (P : Nat),
        Reachable s → d.passengerId = some P →
        getPassengerActiveRide s P = none →
        ∀ r s', createRide s now d = (Except.ok r, s') →
          ∃ r₂, getRide s' r.id = some r₂ ∧ r₂.status = "requested" ∧
            r₂.passengerId = some P ∧ r₂.driverId = none) := by
  intro h
  have hc := h initStore 5 (payloadPD 1 9) 1 ⟨[], rfl⟩ rfl rfl
    (newRideOf initStore 5 (payloadPD 1 9))
    (createRide initStore 5 (payloadPD 1 9)).2 rfl
  rcases hc with ⟨r₂, hg, _, _, hdrv⟩
  have hval : getRide (createRide initStore 5 (payloadPD 1 9)).2
      (newRideOf initStore 5 (payloadPD 1 9)).id =
      some (newRideOf initStore 5 (payloadPD 1 9)) := rfl
  rw [hval] at hg
  cases hg
  exact absurd hdrv (by decide)

/-- Claim C7, amended (algebraic_relational).  For every passenger id `P`
with no active ride, `createRide` with `passengerId = P` — and, as the
counterexample forces, a payload carrying no `driverId` — succeeds, and
`getRide` on the returned id yields that ride with status `requested`,
`passengerId = P` and `driverId` null. -/
theorem C7_create_get_roundTrip (s : Store) (now : Nat) (d : InsertRide)
    (P : Nat) (hp : d.passengerId = some P) (hd : d.driverId = none)
    (hact : getPassengerActiveRide s P = none) :
    ∃ r s', createRide s now d = (Except.ok r, s') ∧
      getRide s' r.id = some r ∧ r.status = "requested" ∧
      r.passengerId = some P ∧ r.driverId = none := by
  rcases createRide_cases s now d with ⟨⟨r₀, hg⟩, _⟩ | ⟨_, he⟩
  · unfold createGuard at hg
    rw [hp] at hg
    have hg' : getPassengerActiveRide s P = some r₀ := hg
    rw [hact] at hg'
    cases hg'
  · refine ⟨newRideOf s now d, _, he, ?_, rfl, ?_, ?_⟩
    · exact lookupA_setA_self s.rides s.rideIdCounter (newRideOf s now d)
    · simp [newRideOf, hp]
    · simp [newRideOf, hd]

/-- Witness for the amended C7 on the fresh store. -/
theorem C7_witness :
    ∃ r s', createRide initStore 5 (payloadP 1) = (Except.ok r, s') ∧
      getRide s' r.id = some r ∧ r.status = "requested" ∧
      r.passengerId = some 1 ∧ r.driverId = none :=
  C7_create_get_roundTrip initStore 5 (payloadP 1) 1 rfl rfl rfl

/-! ### Claim C1: the one-active-ride guards

`createRide` guards only the passenger role and `acceptRide` only the
driver role, so the per-role uniqueness below is preserved, while the
combined "at most one non-terminal ride per user in either role" fails:
a passenger with a requested ride may still accept another ride as its
driver. -/

/-- No two entries of the ride map hold an active ride of the same
passenger. -/
def RidesPassUniq (l : List (Nat × Ride)) : Prop :=
  ∀ u : Nat, ∀ p ∈ l, ∀ q ∈ l,
    PassengerActive u p.2 → PassengerActive u q.2 → p.1 = q.1

/-- No two entries of the ride map hold an active ride of the same
driver. -/
def RidesDrvUniq (l : List (Nat × Ride)) : Prop :=
  ∀ u : Nat, ∀ p ∈ l, ∀ q ∈ l,
    DriverActive u p.2 → DriverActive u q.2 → p.1 = q.1

theorem mem_valuesA {α : Type} {l : List (Nat × α)} {q : Nat × α}
    (h : q ∈ l) : q.2 ∈ valuesA l :=
  List.mem_map_of_mem (fun p => p.2) h

/-- Writing `upd` at key `rid` keeps both uniqueness invariants as long
as any activity of `upd` pins every conflicting entry to key `rid`. -/
theorem uniq_setA (l : List (Nat × Ride)) (rid : Nat) (upd : Ride)
    (hP : RidesPassUniq l) (hD : RidesDrvUniq l)
    (hup : ∀ u, PassengerActive u upd →
      ∀ q ∈ l, PassengerActive u q.2 → q.1 = rid)
    (hud : ∀ u, DriverActive u upd →
      ∀ q ∈ l, DriverActive u q.2 → q.1 = rid) :
    RidesPassUniq (setA l rid upd) ∧ RidesDrvUniq (setA l rid upd) := by
  constructor
  · intro u p hp q hq hap haq
    rcases mem_setA hp with hpE | hpL
    · rcases mem_setA hq with hqE | hqL
      · rw [hpE, hqE]
      · rw [hpE]
        exact (hup u (by rw [hpE] at hap; exact hap) q hqL haq).symm
    · rcases mem_setA hq with hqE | hqL
      · rw [hqE]
        exact hup u (by rw [hqE] at haq; exact haq) p hpL hap
      · exact hP u p hpL q hqL hap haq
  · intro u p hp q hq hap haq
    rcases mem_setA hp with hpE | hpL
    · rcases mem_setA hq with hqE | hqL
      · rw [hpE, hqE]
      · rw [hpE]
        exact (hud u (by rw [hpE] at hap; exact hap) q hqL haq).symm
    · rcases mem_setA hq with hqE | hqL
      · rw [hqE]
        exact hud u (by rw [hqE] at haq; exact haq) p hpL hap
      · exact hD u p hpL q hqL hap haq

/-- One storage command preserves the per-role uniqueness invariants. -/
theorem step_uniq (s : Store) (now : Nat) (op : Op)
    (hP : RidesPassUniq s.rides) (hD : RidesDrvUniq s.rides) :
    RidesPassUniq (applyOp now op s).rides ∧
      RidesDrvUniq (applyOp now op s).rides := by
  cases op with
  | createUser d => exact ⟨hP, hD⟩
  | createRide d =>
      rcases createRide_cases s now d with ⟨_, he⟩ | ⟨hg, he⟩
      · show RidesPassUniq (createRide s now d).2.rides ∧
          RidesDrvUniq (createRide s now d).2.rides
        rw [he]
        exact ⟨hP, hD⟩
      · show RidesPassUniq (createRide s now d).2.rides ∧
          RidesDrvUniq (createRide s now d).2.rides
        rw [he]
        refine uniq_setA s.rides s.rideIdCounter (newRideOf s now d) hP hD
          ?_ ?_
        · intro u hnew q hq haq
          exfalso
          have hpid : d.passengerId = some u := by
            rcases hnew with ⟨h1, _⟩
            simpa [newRideOf] using h1
          have hnone : getPassengerActiveRide s u = none := by
            have hg' := hg
            unfold createGuard at hg'
            rw [hpid] at hg'
            exact hg'
          exact (getPassengerActiveRide_eq_none s u).mp hnone q.2
            (mem_valuesA hq) haq
        · intro u hnew q hq haq
          exfalso
          rcases hnew with ⟨_, hst⟩
          simp [newRideOf, driverActiveStatuses] at hst
  | acceptRide rid drv =>
      rcases acceptRide_cases s now rid drv with
        ⟨_, he⟩ | ⟨_, _, _, he⟩ | ⟨_, _, _, _, _, he⟩ |
        ⟨ride, hg, hst, hguard, he⟩
      · show RidesPassUniq (acceptRide s now rid drv).2.rides ∧
          RidesDrvUniq (acceptRide s now rid drv).2.rides
        rw [he]; exact ⟨hP, hD⟩
      · show RidesPassUniq (acceptRide s now rid drv).2.rides ∧
          RidesDrvUniq (acceptRide s now rid drv).2.rides
        rw [he]; exact ⟨hP, hD⟩
      · show RidesPassUniq (acceptRide s now rid drv).2.rides ∧
          RidesDrvUniq (acceptRide s now rid drv).2.rides
        rw [he]; exact ⟨hP, hD⟩
      · show RidesPassUniq (acceptRide s now rid drv).2.rides ∧
          RidesDrvUniq (acceptRide s now rid drv).2.rides
        rw [he]
        refine uniq_setA s.rides rid (acceptedRideOf ride now drv) hP hD
          ?_ ?_
        · intro u hau q hq haq
          have hpid : ride.passengerId = some u := by
            rcases hau with ⟨h1, _⟩
            simpa [acceptedRideOf] using h1
          have hrold : PassengerActive u ride :=
            ⟨hpid, by rw [hst]; decide⟩
          exact (hP u (rid, ride) (lookupA_mem hg) q hq hrold haq).symm
        · intro u hau q hq haq
          exfalso
          have hdrv : u = drv := by
            rcases hau with ⟨h1, _⟩
            have : some drv = some u := by
              simpa [acceptedRideOf] using h1
            exact (Option.some.injEq _ _ ▸ this).symm
          subst hdrv
          exact (getDriverActiveRide_eq_none s u).mp hguard q.2
            (mem_valuesA hq) haq
  | declineRide rid =>
      rcases declineRide_cases s now rid with
        ⟨_, he⟩ | ⟨_, _, _, he⟩ | ⟨ride, hg, hst, he⟩
      · show RidesPassUniq (declineRide s now rid).2.rides ∧
          RidesDrvUniq (declineRide s now rid).2.rides
        rw [he]; exact ⟨hP, hD⟩
      · show RidesPassUniq (declineRide s now rid).2.rides ∧
          RidesDrvUniq (declineRide s now rid).2.rides
        rw [he]; exact ⟨hP, hD⟩
      · show RidesPassUniq (declineRide s now rid).2.rides ∧
          RidesDrvUniq (declineRide s now rid).2.rides
        rw [he]
        refine uniq_setA s.rides rid (cancelledRideOf ride now) hP hD ?_ ?_
        · intro u hau q hq haq
          exfalso
          rcases hau with ⟨_, hst2⟩
          simp [cancelledRideOf, activeStatuses] at hst2
        · intro u hau q hq haq
          exfalso
          rcases hau with ⟨_, hst2⟩
          simp [cancelledRideOf, driverActiveStatuses] at hst2
  | markDriverArrived rid =>
      rcases markDriverArrived_cases s rid with
        ⟨_, he⟩ | ⟨_, _, _, he⟩ | ⟨_, _, _, he⟩ <;>
        · show RidesPassUniq (markDriverArrived s rid).2.rides ∧
            RidesDrvUniq (markDriverArrived s rid).2.rides
          rw [he]; exact ⟨hP, hD⟩
  | startRide rid =>
      rcases startRide_cases s now rid with
        ⟨_, he⟩ | ⟨_, _, _, he⟩ | ⟨ride, hg, hst, he⟩
      · show RidesPassUniq (startRide s now rid).2.rides ∧
          RidesDrvUniq (startRide s now rid).2.rides
        rw [he]; exact ⟨hP, hD⟩
      · show RidesPassUniq (startRide s now rid).2.rides ∧
          RidesDrvUniq (startRide s now rid).2.rides
        rw [he]; exact ⟨hP, hD⟩
      · show RidesPassUniq (startRide s now rid).2.rides ∧
          RidesDrvUniq (startRide s now rid).2.rides
        rw [he]
        refine uniq_setA s.rides rid (startedRideOf ride now) hP hD ?_ ?_
        · intro u hau q hq haq
          have hpid : ride.passengerId = some u := by
            rcases hau with ⟨h1, _⟩
            simpa [startedRideOf] using h1
          have hrold : PassengerActive u ride :=
            ⟨hpid, by rw [hst]; decide⟩
          exact (hP u (rid, ride) (lookupA_mem hg) q hq hrold haq).symm
        · intro u hau q hq haq
          have hdid : ride.driverId = some u := by
            rcases hau with ⟨h1, _⟩
            simpa [startedRideOf] using h1
          have hrold : DriverActive u ride :=
            ⟨hdid, by rw [hst]; decide⟩
          exact (hD u (rid, ride) (lookupA_mem hg) q hq hrold haq).symm
  | completeRide rid =>
      rcases completeRide_cases s now rid with
        ⟨_, he⟩ | ⟨_, _, _, he⟩ | ⟨ride, hg, hst, he⟩
      · show RidesPassUniq (completeRide s now rid).2.rides ∧
          RidesDrvUniq (completeRide s now rid).2.rides
        rw [he]; exact ⟨hP, hD⟩
      · show RidesPassUniq (completeRide s now rid).2.rides ∧
          RidesDrvUniq (completeRide s now rid).2.rides
        rw [he]; exact ⟨hP, hD⟩
      · show RidesPassUniq (completeRide s now rid).2.rides ∧
          RidesDrvUniq (completeRide s now rid).2.rides
        rw [he]
        refine uniq_setA s.rides rid (completedRideOf ride now) hP hD ?_ ?_
        · intro u hau q hq haq
          exfalso
          rcases hau with ⟨_, hst2⟩
          simp [completedRideOf, activeStatuses] at hst2
        · intro u hau q hq haq
          exfalso
          rcases hau with ⟨_, hst2⟩
          simp [completedRideOf, driverActiveStatuses] at hst2
  | cancelRide rid =>
      rcases cancelRide_cases s now rid with
        ⟨_, he⟩ | ⟨_, _, _, he⟩ | ⟨ride, hg, hst, he⟩
      · show RidesPassUniq (cancelRide s now rid).2.rides ∧
          RidesDrvUniq (cancelRide s now rid).2.rides
        rw [he]; exact ⟨hP, hD⟩
      · show RidesPassUniq (cancelRide s now rid).2.rides ∧
          RidesDrvUniq (cancelRide s now rid).2.rides
        rw [he]; exact ⟨hP, hD⟩
      · show RidesPassUniq (cancelRide s now rid).2.rides ∧
          RidesDrvUniq (cancelRide s now rid).2.rides
        rw [he]
        refine uniq_setA s.rides rid (cancelledRideOf ride now) hP hD ?_ ?_
        · intro u hau q hq haq
          exfalso
          rcases hau with ⟨_, hst2⟩
          simp [cancelledRideOf, activeStatuses] at hst2
        · intro u hau q hq haq
          exfalso
          rcases hau with ⟨_, hst2⟩
          simp [cancelledRideOf, driverActiveStatuses] at hst2

/-- Running any trace preserves the per-role uniqueness invariants. -/
theorem runOps_uniq (l : List (Nat × Op)) (s : Store)
    (h : RidesPassUniq s.rides ∧ RidesDrvUniq s.rides) :
    RidesPassUniq (runOps l s).rides ∧ RidesDrvUniq (runOps l s).rides := by
  induction l generalizing s with
  | nil => exact h
  | cons x t ih => exact ih (applyOp x.1 x.2 s) (step_uniq s x.1 x.2 h.1 h.2)

/-- Trace exhibiting the cross-role double booking: user 1 requests a
ride as passenger, then accepts passenger 2's ride as driver. -/
def c1Trace : List (Nat × Op) :=
  [(10, Op.createRide (payloadP 1)), (11, Op.createRide (payloadP 2)),
   (12, Op.acceptRide 2 1)]

def c1Store : Store := runOps c1Trace initStore

/-- Counterexample to claim C1 as stated: after passenger 1 requests ride
1, passenger 2 requests ride 2, and user 1 accepts ride 2 as its
driver, user 1 participates in two distinct non-terminal rides, so the
combined invariant fails on a reachable store. -/
theorem C1_counterexample :
    ¬ (∀ s, Reachable s → ∀ u i j ri rj, getRide s i = some ri →
        getRide s j = some rj → ActiveForUser u ri → ActiveForUser u rj →
        i = j) := by
  intro h
  have h1 : getRide c1Store 1 = some ((getRide c1Store 1).get (by decide)) :=
    (Option.some_get _).symm
  have h2 : getRide c1Store 2 = some ((getRide c1Store 2).get (by decide)) :=
    (Option.some_get _).symm
  have h12 := h c1Store ⟨c1Trace, rfl⟩ 1 1 2 _ _ h1 h2 (by decide) (by decide)
  exact absurd h12 (by decide)

/-- Claim C1, amended (invariants).  On every reachable store the guards
enforce the per-role invariant the code actually checks: at most one
ride per user as passenger is in `{requested, accepted, in_progress}`,
and at most one ride per user as driver is in
`{accepted, in_progress}`.  The combined cross-role form of the claim
is refuted by `C1_counterexample`. -/
theorem C1_per_role_one_active_ride (s : Store) (h : Reachable s) :
    (∀ u i j ri rj, getRide s i = some ri → getRide s j = some rj →
      PassengerActive u ri → PassengerActive u rj → i = j) ∧
    (∀ u i j ri rj, getRide s i = some ri → getRide s j = some rj →
      DriverActive u ri → DriverActive u rj → i = j) := by
  obtain ⟨l, rfl⟩ := h
  have hinit : RidesPassUniq initStore.rides ∧ RidesDrvUniq initStore.rides := by
    have hrid : initStore.rides = [] := rfl
    constructor <;> intro u p hp <;> rw [hrid] at hp <;> cases hp
  obtain ⟨hP, hD⟩ := runOps_uniq l initStore hinit
  constructor
  · intro u i j ri rj hi hj hai haj
    exact hP u (i, ri) (lookupA_mem hi) (j, rj) (lookupA_mem hj) hai haj
  · intro u i j ri rj hi hj hai haj
    exact hD u (i, ri) (lookupA_mem hi) (j, rj) (lookupA_mem hj) hai haj

/-- Witness for the amended C1 on the store with one accepted ride. -/
theorem C1_witness :
    (∀ u i j ri rj, getRide c6Store i = some ri →
      getRide c6Store j = some rj → PassengerActive u ri →
      PassengerActive u rj → i = j) ∧
    (∀ u i j ri rj, getRide c6Store i = some ri →
      getRide c6Store j = some rj → DriverActive u ri →
      DriverActive u rj → i = j) :=
  C1_per_role_one_active_ride c6Store
    ⟨[(5, Op.createRide (payloadP 1)), (6, Op.acceptRide 1 9)], rfl⟩

/-! ### Ride-id bookkeeping: stored ids stay below the counter -/

/-- All ride keys are below the id counter (so a fresh id is unused). -/
def RideIdsBelow (s : Store) : Prop :=
  ∀ p ∈ s.rides, p.1 < s.rideIdCounter

theorem dom_setA {l : List (Nat × Ride)} {c rid : Nat} {upd : Ride}
    (h : ∀ p ∈ l, p.1 < c) (hrid : rid < c) :
    ∀ p ∈ setA l rid upd, p.1 < c := by
  intro p hp
  rcases mem_setA hp with hE | hL
  · rw [hE]; exact hrid
  · exact h p hL

theorem step_counter_le (s : Store) (now : Nat) (op : Op) :
    s.rideIdCounter ≤ (applyOp now op s).rideIdCounter := by
  cases op with
  | createUser d => exact Nat.le_refl _
  | createRide d =>
      rcases createRide_cases s now d with ⟨_, he⟩ | ⟨_, he⟩
      · show s.rideIdCounter ≤ (createRide s now d).2.rideIdCounter
        rw [he]
      · show s.rideIdCounter ≤ (createRide s now d).2.rideIdCounter
        rw [he]
        simp
  | acceptRide rid drv =>
      rcases acceptRide_cases s now rid drv with
        ⟨_, he⟩ | ⟨_, _, _, he⟩ | ⟨_, _, _, _, _, he⟩ | ⟨_, _, _, _, he⟩ <;>
        · show s.rideIdCounter ≤ (acceptRide s now rid drv).2.rideIdCounter
          rw [he]
  | declineRide rid =>
      rcases declineRide_cases s now rid with
        ⟨_, he⟩ | ⟨_, _, _, he⟩ | ⟨_, _, _, he⟩ <;>
        · show s.rideIdCounter ≤ (declineRide s now rid).2.rideIdCounter
          rw [he]
  | markDriverArrived rid =>
      rcases markDriverArrived_cases s rid with
        ⟨_, he⟩ | ⟨_, _, _, he⟩ | ⟨_, _, _, he⟩ <;>
        · show s.rideIdCounter ≤ (markDriverArrived s rid).2.rideIdCounter
          rw [he]
  | startRide rid =>
      rcases startRide_cases s now rid with
        ⟨_, he⟩ | ⟨_, _, _, he⟩ | ⟨_, _, _, he⟩ <;>
        · show s.rideIdCounter ≤ (startRide s now rid).2.rideIdCounter
          rw [he]
  | completeRide rid =>
      rcases completeRide_cases s now rid with
        ⟨_, he⟩ | ⟨_, _, _, he⟩ | ⟨_, _, _, he⟩ <;>
        · show s.rideIdCounter ≤ (completeRide s now rid).2.rideIdCounter
          rw [he]
  | cancelRide rid =>
      rcases cancelRide_cases s now rid with
        ⟨_, he⟩ | ⟨_, _, _, he⟩ | ⟨_, _, _, he⟩ <;>
        · show s.rideIdCounter ≤ (cancelRide s now rid).2.rideIdCounter
          rw [he]

theorem step_dom (s : Store) (now : Nat) (op : Op) (h : RideIdsBelow s) :
    RideIdsBelow (applyOp now op s) := by
  cases op with
  | createUser d => exact h
  | createRide d =>
      rcases createRide_cases s now d with ⟨_, he⟩ | ⟨_, he⟩
      · show RideIdsBelow (createRide s now d).2
        rw [he]; exact h
      · show RideIdsBelow (createRide s now d).2
        rw [he]
        exact dom_setA (fun p hp => Nat.lt_succ_of_lt (h p hp))
          (Nat.lt_succ_self _)
  | acceptRide rid drv =>
      rcases acceptRide_cases s now rid drv with
        ⟨_, he⟩ | ⟨_, _, _, he⟩ | ⟨_, _, _, _, _, he⟩ | ⟨ride, hg, _, _, he⟩
      · show RideIdsBelow (acceptRide s now rid drv).2
        rw [he]; exact h
      · show RideIdsBelow (acceptRide s now rid drv).2
        rw [he]; exact h
      · show RideIdsBelow (acceptRide s now rid drv).2
        rw [he]; exact h
      · show RideIdsBelow (acceptRide s now rid drv).2
        rw [he]
        exact dom_setA h (h (rid, ride) (lookupA_mem hg))
  | declineRide rid =>
      rcases declineRide_cases s now rid with
        ⟨_, he⟩ | ⟨_, _, _, he⟩ | ⟨ride, hg, _, he⟩
      · show RideIdsBelow (declineRide s now rid).2
        rw [he]; exact h
      · show RideIdsBelow (declineRide s now rid).2
        rw [he]; exact h
      · show RideIdsBelow (declineRide s now rid).2
        rw [he]
        exact dom_setA h (h (rid, ride) (lookupA_mem hg))
  | markDriverArrived rid =>
      rcases markDriverArrived_cases s rid with
        ⟨_, he⟩ | ⟨_, _, _, he⟩ | ⟨_, _, _, he⟩ <;>
        · show RideIdsBelow (markDriverArrived s rid).2
          rw [he]; exact h
  | startRide rid =>
      rcases startRide_cases s now rid with
        ⟨_, he⟩ | ⟨_, _, _, he⟩ | ⟨ride, hg, _, he⟩
      · show RideIdsBelow (startRide s now rid).2
        rw [he]; exact h
      · show RideIdsBelow (startRide s now rid).2
        rw [he]; exact h
      · show RideIdsBelow (startRide s now rid).2
        rw [he]
        exact dom_setA h (h (rid, ride) (lookupA_mem hg))
  | completeRide rid =>
      rcases completeRide_cases s now rid with
        ⟨_, he⟩ | ⟨_, _, _, he⟩ | ⟨ride, hg, _, he⟩
      · show RideIdsBelow (completeRide s now rid).2
        rw [he]; exact h
      · show RideIdsBelow (completeRide s now rid).2
        rw [he]; exact h
      · show RideIdsBelow (completeRide s now rid).2
        rw [he]
        exact dom_setA h (h (rid, ride) (lookupA_mem hg))
  | cancelRide rid =>
      rcases cancelRide_cases s now rid with
        ⟨_, he⟩ | ⟨_, _, _, he⟩ | ⟨ride, hg, _, he⟩
      · show RideIdsBelow (cancelRide s now rid).2
        rw [he]; exact h
      · show RideIdsBelow (cancelRide s now rid).2
        rw [he]; exact h
      · show RideIdsBelow (cancelRide s now rid).2
        rw [he]
        exact dom_setA h (h (rid, ride) (lookupA_mem hg))

theorem runOps_dom (l : List (Nat × Op)) (s : Store) (h : RideIdsBelow s) :
    RideIdsBelow (runOps l s) := by
  induction l generalizing s with
  | nil => exact h
  | cons x t ih => exact ih (applyOp x.1 x.2 s) (step_dom s x.1 x.2 h)

theorem runOps_counter_le (l : List (Nat × Op)) (s : Store) :
    s.rideIdCounter ≤ (runOps l s).rideIdCounter := by
  induction l generalizing s with
  | nil => exact Nat.le_refl _
  | cons x t ih =>
      exact Nat.le_trans (step_counter_le s x.1 x.2) (ih (applyOp x.1 x.2 s))

theorem reachable_dom (s : Store) (h : Reachable s) : RideIdsBelow s := by
  obtain ⟨l, rfl⟩ := h
  refine runOps_dom l initStore ?_
  intro p hp
  have hrid : initStore.rides = [] := rfl
  rw [hrid] at hp
  cases hp

/-! ### Claim C4: terminal rides never move again -/

/-- One command leaves a terminal ride's record untouched. -/
theorem step_keeps_terminal (s : Store) (now : Nat) (op : Op) (rid : Nat)
    (r : Ride) (hdom : RideIdsBelow s) (hg : getRide s rid = some r)
    (hterm : r.status = "completed" ∨ r.status = "cancelled") :
    getRide (applyOp now op s) rid = some r := by
  have hne_req : r.status ≠ "requested" := by
    rcases hterm with h | h <;> rw [h] <;> decide
  have hne_acc : r.status ≠ "accepted" := by
    rcases hterm with h | h <;> rw [h] <;> decide
  have hne_prog : r.status ≠ "in_progress" := by
    rcases hterm with h | h <;> rw [h] <;> decide
  have hnotact : r.status ∉ activeStatuses := by
    rcases hterm with h | h <;> rw [h] <;> decide
  cases op with
  | createUser d => exact hg
  | createRide d =>
      rcases createRide_cases s now d with ⟨_, he⟩ | ⟨_, he⟩
      · show getRide (createRide s now d).2 rid = some r
        rw [he]; exact hg
      · show getRide (createRide s now d).2 rid = some r
        rw [he]
        have hfresh : rid ≠ s.rideIdCounter :=
          Nat.ne_of_lt (hdom (rid, r) (lookupA_mem hg))
        show lookupA (setA s.rides s.rideIdCounter (newRideOf s now d)) rid =
          some r
        rw [lookupA_setA_ne s.rides s.rideIdCounter rid
          (newRideOf s now d) hfresh]
        exact hg
  | acceptRide rid2 drv =>
      rcases acceptRide_cases s now rid2 drv with
        ⟨_, he⟩ | ⟨_, _, _, he⟩ | ⟨_, _, _, _, _, he⟩ | ⟨ride, hg2, hst, _, he⟩
      · show getRide (acceptRide s now rid2 drv).2 rid = some r
        rw [he]; exact hg
      · show getRide (acceptRide s now rid2 drv).2 rid = some r
        rw [he]; exact hg
      · show getRide (acceptRide s now rid2 drv).2 rid = some r
        rw [he]; exact hg
      · show getRide (acceptRide s now rid2 drv).2 rid = some r
        rw [he]
        have hne : rid ≠ rid2 := by
          intro hcontra
          rw [← hcontra, hg] at hg2
          cases hg2
          exact hne_req hst
        show lookupA (setA s.rides rid2 (acceptedRideOf ride now drv)) rid =
          some r
        rw [lookupA_setA_ne s.rides rid2 rid (acceptedRideOf ride now drv) hne]
        exact hg
  | declineRide rid2 =>
      rcases declineRide_cases s now rid2 with
        ⟨_, he⟩ | ⟨_, _, _, he⟩ | ⟨ride, hg2, hst, he⟩
      · show getRide (declineRide s now rid2).2 rid = some r
        rw [he]; exact hg
      · show getRide (declineRide s now rid2).2 rid = some r
        rw [he]; exact hg
      · show getRide (declineRide s now rid2).2 rid = some r
        rw [he]
        have hne : rid ≠ rid2 := by
          intro hcontra
          rw [← hcontra, hg] at hg2
          cases hg2
          exact hne_req hst
        show lookupA (setA s.rides rid2 (cancelledRideOf ride now)) rid =
          some r
        rw [lookupA_setA_ne s.rides rid2 rid (cancelledRideOf ride now) hne]
        exact hg
  | markDriverArrived rid2 =>
      rcases markDriverArrived_cases s rid2 with
        ⟨_, he⟩ | ⟨_, _, _, he⟩ | ⟨_, _, _, he⟩ <;>
        · show getRide (markDriverArrived s rid2).2 rid = some r
          rw [he]; exact hg
  | startRide rid2 =>
      rcases startRide_cases s now rid2 with
        ⟨_, he⟩ | ⟨_, _, _, he⟩ | ⟨ride, hg2, hst, he⟩
      · show getRide (startRide s now rid2).2 rid = some r
        rw [he]; exact hg
      · show getRide (startRide s now rid2).2 rid = some r
        rw [he]; exact hg
      · show getRide (startRide s now rid2).2 rid = some r
        rw [he]
        have hne : rid ≠ rid2 := by
          intro hcontra
          rw [← hcontra, hg] at hg2
          cases hg2
          exact hne_acc hst
        show lookupA (setA s.rides rid2 (startedRideOf ride now)) rid = some r
        rw [lookupA_setA_ne s.rides rid2 rid (startedRideOf ride now) hne]
        exact hg
  | completeRide rid2 =>
      rcases completeRide_cases s now rid2 with
        ⟨_, he⟩ | ⟨_, _, _, he⟩ | ⟨ride, hg2, hst, he⟩
      · show getRide (completeRide s now rid2).2 rid = some r
        rw [he]; exact hg
      · show getRide (completeRide s now rid2).2 rid = some r
        rw [he]; exact hg
      · show getRide (completeRide s now rid2).2 rid = some r
        rw [he]
        have hne : rid ≠ rid2 := by
          intro hcontra
          rw [← hcontra, hg] at hg2
          cases hg2
          exact hne_prog hst
        show lookupA (setA s.rides rid2 (completedRideOf ride now)) rid =
          some r
        rw [lookupA_setA_ne s.rides rid2 rid (completedRideOf ride now) hne]
        exact hg
  | cancelRide rid2 =>
      rcases cancelRide_cases s now rid2 with
        ⟨_, he⟩ | ⟨_, _, _, he⟩ | ⟨ride, hg2, hst, he⟩
      · show getRide (cancelRide s now rid2).2 rid = some r
        rw [he]; exact hg
      · show getRide (cancelRide s now rid2).2 rid = some r
        rw [he]; exact hg
      · show getRide (cancelRide s now rid2).2 rid = some r
        rw [he]
        have hne : rid ≠ rid2 := by
          intro hcontra
          rw [← hcontra, hg] at hg2
          cases hg2
          exact hnotact hst
        show lookupA (setA s.rides rid2 (cancelledRideOf ride now)) rid =
          some r
        rw [lookupA_setA_ne s.rides rid2 rid (cancelledRideOf ride now) hne]
        exact hg

/-- Entire traces leave a terminal ride's record untouched. -/
theorem runOps_keeps_terminal (l : List (Nat × Op)) (s : Store) (rid : Nat)
    (r : Ride) (hdom : RideIdsBelow s) (hg : getRide s rid = some r)
    (hterm : r.status = "completed" ∨ r.status = "cancelled") :
    getRide (runOps l s) rid = some r := by
  induction l generalizing s with
  | nil => exact hg
  | cons x t ih =>
      exact ih (applyOp x.1 x.2 s) (step_dom s x.1 x.2 hdom)
        (step_keeps_terminal s x.1 x.2 rid r hdom hg hterm)

/-- Claim C4 (temporal).  A ride whose status is `completed` or
`cancelled` never changes again: every lifecycle operation applied to
it fails with `InvalidTransition`, and in every state reachable from
here by further commands the ride's record — in particular its terminal
status — is unchanged. -/
theorem C4_terminal_status_permanent (s : Store) (h : Reachable s)
    (rid : Nat) (r : Ride) (hg : getRide s rid = some r)
    (hterm : r.status = "completed" ∨ r.status = "cancelled") :
    (∀ now d₂, (acceptRide s now rid d₂).1 =
      Except.error Err.invalidTransition) ∧
    (∀ now, (declineRide s now rid).1 =
      Except.error Err.invalidTransition) ∧
    ((markDriverArrived s rid).1 = Except.error Err.invalidTransition) ∧
    (∀ now, (startRide s now rid).1 = Except.error Err.invalidTransition) ∧
    (∀ now, (completeRide s now rid).1 =
      Except.error Err.invalidTransition) ∧
    (∀ now, (cancelRide s now rid).1 =
      Except.error Err.invalidTransition) ∧
    (∀ l, getRide (runOps l s) rid = some r) := by
  have hne_req : r.status ≠ "requested" := by
    rcases hterm with hc | hc <;> rw [hc] <;> decide
  have hne_acc : r.status ≠ "accepted" := by
    rcases hterm with hc | hc <;> rw [hc] <;> decide
  have hne_prog : r.status ≠ "in_progress" := by
    rcases hterm with hc | hc <;> rw [hc] <;> decide
  have hnotact : r.status ∉ activeStatuses := by
    rcases hterm with hc | hc <;> rw [hc] <;> decide
  refine ⟨?_, ?_, ?_, ?_, ?_, ?_, ?_⟩
  · intro now d₂
    rcases acceptRide_cases s now rid d₂ with
      ⟨hg0, _⟩ | ⟨_, _, _, he⟩ | ⟨ride, _, hg0, hst, _, _⟩ |
      ⟨ride, hg0, hst, _, _⟩
    · rw [hg] at hg0; cases hg0
    · rw [he]
    · rw [hg] at hg0; cases hg0; exact absurd hst hne_req
    · rw [hg] at hg0; cases hg0; exact absurd hst hne_req
  · intro now
    rcases declineRide_cases s now rid with
      ⟨hg0, _⟩ | ⟨_, _, _, he⟩ | ⟨ride, hg0, hst, _⟩
    · rw [hg] at hg0; cases hg0
    · rw [he]
    · rw [hg] at hg0; cases hg0; exact absurd hst hne_req
  · rcases markDriverArrived_cases s rid with
      ⟨hg0, _⟩ | ⟨_, _, _, he⟩ | ⟨ride, hg0, hst, _⟩
    · rw [hg] at hg0; cases hg0
    · rw [he]
    · rw [hg] at hg0; cases hg0; exact absurd hst hne_acc
  · intro now
    rcases startRide_cases s now rid with
      ⟨hg0, _⟩ | ⟨_, _, _, he⟩ | ⟨ride, hg0, hst, _⟩
    · rw [hg] at hg0; cases hg0
    · rw [he]
    · rw [hg] at hg0; cases hg0; exact absurd hst hne_acc
  · intro now
    rcases completeRide_cases s now rid with
      ⟨hg0, _⟩ | ⟨_, _, _, he⟩ | ⟨ride, hg0, hst, _⟩
    · rw [hg] at hg0; cases hg0
    · rw [he]
    · rw [hg] at hg0; cases hg0; exact absurd hst hne_prog
  · intro now
    rcases cancelRide_cases s now rid with
      ⟨hg0, _⟩ | ⟨_, _, _, he⟩ | ⟨ride, hg0, hst, _⟩
    · rw [hg] at hg0; cases hg0
    · rw [he]
    · rw [hg] at hg0; cases hg0; exact absurd hst hnotact
  · intro l
    exact runOps_keeps_terminal l s rid r (reachable_dom s h) hg hterm

/-- Example store: passenger 1's ride was requested at instant 5 and
cancelled at instant 6. -/
def c4Store : Store :=
  runOps [(5, Op.createRide (payloadP 1)), (6, Op.cancelRide 1)] initStore

/-- Witness for C4 on a store holding one cancelled ride. -/
theorem C4_witness :
    ((markDriverArrived c4Store 1).1 = Except.error Err.invalidTransition) ∧
      (∀ now, (cancelRide c4Store now 1).1 =
        Except.error Err.invalidTransition) ∧
      (∀ l, getRide (runOps l c4Store) 1 =
        some (cancelledRideOf (newRideOf initStore 5 (payloadP 1)) 6)) :=
  ⟨(C4_terminal_status_permanent c4Store
      ⟨[(5, Op.createRide (payloadP 1)), (6, Op.cancelRide 1)], rfl⟩ 1
      (cancelledRideOf (newRideOf initStore 5 (payloadP 1)) 6) rfl
      (Or.inr rfl)).2.2.1,
   (C4_terminal_status_permanent c4Store
      ⟨[(5, Op.createRide (payloadP 1)), (6, Op.cancelRide 1)], rfl⟩ 1
      (cancelledRideOf (newRideOf initStore 5 (payloadP 1)) 6) rfl
      (Or.inr rfl)).2.2.2.2.2.1,
   (C4_terminal_status_permanent c4Store
      ⟨[(5, Op.createRide (payloadP 1)), (6, Op.cancelRide 1)], rfl⟩ 1
      (cancelledRideOf (newRideOf initStore 5 (payloadP 1)) 6) rfl
      (Or.inr rfl)).2.2.2.2.2.2⟩

/-! ### Claim C2: trace-level status and timestamp discipline -/

/-- The five ride statuses of the schema. -/
def rideStatuses : List String :=
  ["requested", "accepted", "in_progress", "completed", "cancelled"]

theorem runOps_append (a b : List (Nat × Op)) (s : Store) :
    runOps (a ++ b) s = runOps b (runOps a s) := by
  simp [runOps, List.foldl_append]

theorem runOps_snoc (t : List (Nat × Op)) (x : Nat × Op) (s : Store) :
    runOps (t ++ [x]) s = applyOp x.1 x.2 (runOps t s) :=
  runOps_append t [x] s

theorem initStore_dom : RideIdsBelow initStore := by
  intro p hp
  have hrid : initStore.rides = [] := rfl
  rw [hrid] at hp
  cases hp

/-- Ride `rid` has shown status `st` after some front segment of the
trace `l` (the full trace included). -/
def EverStatus (l : List (Nat × Op)) (rid : Nat) (st : String) : Prop :=
  ∃ n r, getRide (runOps (l.take n) initStore) rid = some r ∧ r.status = st

theorem current_to_ever {l : List (Nat × Op)} {rid : Nat} {r : Ride}
    (h : getRide (runOps l initStore) rid = some r) :
    EverStatus l rid r.status :=
  ⟨l.length, r, by rw [List.take_length]; exact h, rfl⟩

theorem everStatus_mono {t : List (Nat × Op)} {x : Nat × Op} {rid : Nat}
    {st : String} (h : EverStatus t rid st) : EverStatus (t ++ [x]) rid st := by
  obtain ⟨n, r, h1, h2⟩ := h
  by_cases hn : n ≤ t.length
  · exact ⟨n, r, by rw [List.take_append_of_le_length hn]; exact h1, h2⟩
  · refine ⟨t.length, r, ?_, h2⟩
    rw [List.take_append_of_le_length (Nat.le_refl _), List.take_length]
    rw [List.take_of_length_le (Nat.le_of_not_le hn)] at h1
    exact h1

theorem everStatus_snoc {t : List (Nat × Op)} {x : Nat × Op} {rid : Nat}
    {st : String} {r' : Ride}
    (hcur : getRide (runOps (t ++ [x]) initStore) rid = some r') :
    EverStatus (t ++ [x]) rid st ↔
      (EverStatus t rid st ∨ r'.status = st) := by
  constructor
  · rintro ⟨n, r, h1, h2⟩
    by_cases hn : n ≤ t.length
    · rw [List.take_append_of_le_length hn] at h1
      exact Or.inl ⟨n, r, h1, h2⟩
    · have hlen : (t ++ [x]).length ≤ n := by
        rw [List.length_append]
        simp only [List.length_singleton]
        omega
      rw [List.take_of_length_le hlen] at h1
      rw [hcur] at h1
      injection h1 with h1
      exact Or.inr (h1 ▸ h2)
  · rintro (h | h)
    · exact everStatus_mono h
    · exact ⟨(t ++ [x]).length, r', by rw [List.take_length]; exact hcur, h⟩

/-- A ride id at or above the current counter has never been stored
during the trace. -/
theorem fresh_not_ever (t : List (Nat × Op)) (rid : Nat)
    (hid : (runOps t initStore).rideIdCounter ≤ rid) (st : String) :
    ¬ EverStatus t rid st := by
  rintro ⟨n, r, h1, _⟩
  have hdom : RideIdsBelow (runOps (List.take n t) initStore) :=
    runOps_dom _ _ initStore_dom
  have hlt : rid < (runOps (List.take n t) initStore).rideIdCounter :=
    hdom (rid, r) (lookupA_mem h1)
  have hle : (runOps (List.take n t) initStore).rideIdCounter ≤
      (runOps t initStore).rideIdCounter := by
    conv_rhs => rw [← List.take_append_drop n t]
    rw [runOps_append]
    exact runOps_counter_le _ _
  omega

/-- How one command changes the record stored at one ride id. -/
theorem step_lookup_cases (s : Store) (now : Nat) (op : Op) (rid : Nat)
    (r' : Ride) (h : getRide (applyOp now op s) rid = some r') :
    getRide s rid = some r' ∨
    (rid = s.rideIdCounter ∧
      ∃ d, op = Op.createRide d ∧ r' = newRideOf s now d) ∨
    (∃ old, getRide s rid = some old ∧
      ((∃ drv, old.status = "requested" ∧
        r' = acceptedRideOf old now drv) ∨
       (old.status = "requested" ∧ r' = cancelledRideOf old now) ∨
       (old.status = "accepted" ∧ r' = startedRideOf old now) ∨
       (old.status = "in_progress" ∧ r' = completedRideOf old now) ∨
       (old.status ∈ activeStatuses ∧ r' = cancelledRideOf old now))) := by
  cases op with
  | createUser d => exact Or.inl h
  | createRide d =>
      have h' : getRide (createRide s now d).2 rid = some r' := h
      rcases createRide_cases s now d with ⟨_, he⟩ | ⟨_, he⟩
      · rw [he] at h'
        exact Or.inl h'
      · rw [he] at h'
        have h'' : lookupA (setA s.rides s.rideIdCounter (newRideOf s now d))
            rid = some r' := h'
        by_cases hr : rid = s.rideIdCounter
        · subst hr
          rw [lookupA_setA_self] at h''
          injection h'' with h''
          exact Or.inr (Or.inl ⟨rfl, d, rfl, h''.symm⟩)
        · rw [lookupA_setA_ne _ _ _ _ hr] at h''
          exact Or.inl h''
  | acceptRide rid2 drv =>
      have h' : getRide (acceptRide s now rid2 drv).2 rid = some r' := h
      rcases acceptRide_cases s now rid2 drv with
        ⟨_, he⟩ | ⟨_, _, _, he⟩ | ⟨_, _, _, _, _, he⟩ | ⟨ride, hg, hst, _, he⟩
      · rw [he] at h'; exact Or.inl h'
      · rw [he] at h'; exact Or.inl h'
      · rw [he] at h'; exact Or.inl h'
      · rw [he] at h'
        have h'' : lookupA (setA s.rides rid2 (acceptedRideOf ride now drv))
            rid = some r' := h'
        by_cases hr : rid = rid2
        · subst hr
          rw [lookupA_setA_self] at h''
          injection h'' with h''
          exact Or.inr (Or.inr ⟨ride, hg, Or.inl ⟨drv, hst, h''.symm⟩⟩)
        · rw [lookupA_setA_ne _ _ _ _ hr] at h''
          exact Or.inl h''
  | declineRide rid2 =>
      have h' : getRide (declineRide s now rid2).2 rid = some r' := h
      rcases declineRide_cases s now rid2 with
        ⟨_, he⟩ | ⟨_, _, _, he⟩ | ⟨ride, hg, hst, he⟩
      · rw [he] at h'; exact Or.inl h'
      · rw [he] at h'; exact Or.inl h'
      · rw [he] at h'
        have h'' : lookupA (setA s.rides rid2 (cancelledRideOf ride now))
            rid = some r' := h'
        by_cases hr : rid = rid2
        · subst hr
          rw [lookupA_setA_self] at h''
          injection h'' with h''
          exact Or.inr (Or.inr ⟨ride, hg, Or.inr (Or.inl ⟨hst, h''.symm⟩)⟩)
        · rw [lookupA_setA_ne _ _ _ _ hr] at h''
          exact Or.inl h''
  | markDriverArrived rid2 =>
      have h' : getRide (markDriverArrived s rid2).2 rid = some r' := h
      rcases markDriverArrived_cases s rid2 with
        ⟨_, he⟩ | ⟨_, _, _, he⟩ | ⟨_, _, _, he⟩ <;>
        · rw [he] at h'; exact Or.inl h'
  | startRide rid2 =>
      have h' : getRide (startRide s now rid2).2 rid = some r' := h
      rcases startRide_cases s now rid2 with
        ⟨_, he⟩ | ⟨_, _, _, he⟩ | ⟨ride, hg, hst, he⟩
      · rw [he] at h'; exact Or.inl h'
      · rw [he] at h'; exact Or.inl h'
      · rw [he] at h'
        have h'' : lookupA (setA s.rides rid2 (startedRideOf ride now))
            rid = some r' := h'
        by_cases hr : rid = rid2
        · subst hr
          rw [lookupA_setA_self] at h''
          injection h'' with h''
          exact Or.inr (Or.inr ⟨ride, hg,
            Or.inr (Or.inr (Or.inl ⟨hst, h''.symm⟩))⟩)
        · rw [lookupA_setA_ne _ _ _ _ hr] at h''
          exact Or.inl h''
  | completeRide rid2 =>
      have h' : getRide (completeRide s now rid2).2 rid = some r' := h
      rcases completeRide_cases s now rid2 with
        ⟨_, he⟩ | ⟨_, _, _, he⟩ | ⟨ride, hg, hst, he⟩
      · rw [he] at h'; exact Or.inl h'
      · rw [he] at h'; exact Or.inl h'
      · rw [he] at h'
        have h'' : lookupA (setA s.rides rid2 (completedRideOf ride now))
            rid = some r' := h'
        by_cases hr : rid = rid2
        · subst hr
          rw [lookupA_setA_self] at h''
          injection h'' with h''
          exact Or.inr (Or.inr ⟨ride, hg,
            Or.inr (Or.inr (Or.inr (Or.inl ⟨hst, h''.symm⟩)))⟩)
        · rw [lookupA_setA_ne _ _ _ _ hr] at h''
          exact Or.inl h''
  | cancelRide rid2 =>
      have h' : getRide (cancelRide s now rid2).2 rid = some r' := h
      rcases cancelRide_cases s now rid2 with
        ⟨_, he⟩ | ⟨_, _, _, he⟩ | ⟨ride, hg, hst, he⟩
      · rw [he] at h'; exact Or.inl h'
      · rw [he] at h'; exact Or.inl h'
      · rw [he] at h'
        have h'' : lookupA (setA s.rides rid2 (cancelledRideOf ride now))
            rid = some r' := h'
        by_cases hr : rid = rid2
        · subst hr
          rw [lookupA_setA_self] at h''
          injection h'' with h''
          exact Or.inr (Or.inr ⟨ride, hg,
            Or.inr (Or.inr (Or.inr (Or.inr ⟨hst, h''.symm⟩)))⟩)
        · rw [lookupA_setA_ne _ _ _ _ hr] at h''
          exact Or.inl h''

theorem ts_iff_same {t : List (Nat × Op)} {x : Nat × Op} {rid : Nat}
    {st : String} {a : Option Nat} {r : Ride}
    (hA : getRide (runOps t initStore) rid = some r)
    (hcur : getRide (runOps (t ++ [x]) initStore) rid = some r)
    (prev : a ≠ none ↔ EverStatus t rid st) :
    a ≠ none ↔ EverStatus (t ++ [x]) rid st := by
  rw [everStatus_snoc hcur]
  constructor
  · exact fun h => Or.inl (prev.mp h)
  · rintro (hev | hst)
    · exact prev.mpr hev
    · exact prev.mpr (hst ▸ current_to_ever hA)

theorem ts_iff_unchanged {t : List (Nat × Op)} {x : Nat × Op} {rid : Nat}
    {st : String} {a : Option Nat} {r : Ride}
    (hcur : getRide (runOps (t ++ [x]) initStore) rid = some r)
    (prev : a ≠ none ↔ EverStatus t rid st)
    (hstatus : r.status ≠ st) :
    a ≠ none ↔ EverStatus (t ++ [x]) rid st := by
  rw [everStatus_snoc hcur]
  constructor
  · exact fun h => Or.inl (prev.mp h)
  · rintro (hev | hst2)
    · exact prev.mpr hev
    · exact absurd hst2 hstatus

theorem ts_iff_set {t : List (Nat × Op)} {x : Nat × Op} {rid : Nat}
    {st : String} {v : Nat} {r : Ride}
    (hcur : getRide (runOps (t ++ [x]) initStore) rid = some r)
    (hstatus : r.status = st) :
    some v ≠ none ↔ EverStatus (t ++ [x]) rid st := by
  rw [everStatus_snoc hcur]
  constructor
  · exact fun _ => Or.inr hstatus
  · intro _
    simp

theorem ts_iff_fresh {t : List (Nat × Op)} {x : Nat × Op} {rid : Nat}
    {st : String} {r : Ride}
    (hcur : getRide (runOps (t ++ [x]) initStore) rid = some r)
    (hid : (runOps t initStore).rideIdCounter ≤ rid)
    (hstatus : r.status ≠ st) :
    (none : Option Nat) ≠ none ↔ EverStatus (t ++ [x]) rid st := by
  rw [everStatus_snoc hcur]
  constructor
  · intro h
    exact absurd rfl h
  · rintro (hev | hst2)
    · exact absurd hev (fresh_not_ever t rid hid st)
    · exact absurd hst2 hstatus

/-- Claim C2 (invariants).  In every reachable store state, every ride's
status is one of the five schema statuses, its `requestedAt` is set,
and each of the other four timestamps is non-null exactly when the ride
has, at some point of the trace, reached the corresponding status. -/
theorem C2_status_enum_and_timestamp_history (l : List (Nat × Op))
    (rid : Nat) (r : Ride)
    (hg : getRide (runOps l initStore) rid = some r) :
    r.status ∈ rideStatuses ∧
    r.requestedAt ≠ none ∧
    (r.acceptedAt ≠ none ↔ EverStatus l rid "accepted") ∧
    (r.startedAt ≠ none ↔ EverStatus l rid "in_progress") ∧
    (r.completedAt ≠ none ↔ EverStatus l rid "completed") ∧
    (r.cancelledAt ≠ none ↔ EverStatus l rid "cancelled") := by
  induction l using List.reverseRecOn generalizing rid r with
  | nil =>
      have hnone : getRide (runOps [] initStore) rid = none := rfl
      rw [hnone] at hg
      cases hg
  | append_singleton t x ih =>
      have hcur := hg
      rw [runOps_snoc] at hg
      rcases step_lookup_cases (runOps t initStore) x.1 x.2 rid r hg with
        hA | ⟨hBid, d, _, hBr⟩ | ⟨old, hOld, hC⟩
      · obtain ⟨henum, hreq, hacc, hsta, hcom, hcanc⟩ := ih rid r hA
        exact ⟨henum, hreq, ts_iff_same hA hcur hacc,
          ts_iff_same hA hcur hsta, ts_iff_same hA hcur hcom,
          ts_iff_same hA hcur hcanc⟩
      · subst hBr
        have hid : (runOps t initStore).rideIdCounter ≤ rid :=
          Nat.le_of_eq hBid.symm
        refine ⟨?_, by simp [newRideOf], ?_, ?_, ?_, ?_⟩
        · show "requested" ∈ rideStatuses
          decide
        · exact ts_iff_fresh hcur hid
            (show ("requested" : String) ≠ "accepted" by decide)
        · exact ts_iff_fresh hcur hid
            (show ("requested" : String) ≠ "in_progress" by decide)
        · exact ts_iff_fresh hcur hid
            (show ("requested" : String) ≠ "completed" by decide)
        · exact ts_iff_fresh hcur hid
            (show ("requested" : String) ≠ "cancelled" by decide)
      · obtain ⟨henum, hreq, hacc, hsta, hcom, hcanc⟩ := ih rid old hOld
        rcases hC with ⟨drv, hst, hr⟩ | ⟨hst, hr⟩ | ⟨hst, hr⟩ |
          ⟨hst, hr⟩ | ⟨hst, hr⟩
        · subst hr
          exact ⟨show "accepted" ∈ rideStatuses by decide,
            by simpa [acceptedRideOf] using hreq,
            ts_iff_set hcur rfl,
            ts_iff_unchanged hcur hsta
              (show ("accepted" : String) ≠ "in_progress" by decide),
            ts_iff_unchanged hcur hcom
              (show ("accepted" : String) ≠ "completed" by decide),
            ts_iff_unchanged hcur hcanc
              (show ("accepted" : String) ≠ "cancelled" by decide)⟩
        · subst hr
          exact ⟨show "cancelled" ∈ rideStatuses by decide,
            by simpa [cancelledRideOf] using hreq,
            ts_iff_unchanged hcur hacc
              (show ("cancelled" : String) ≠ "accepted" by decide),
            ts_iff_unchanged hcur hsta
              (show ("cancelled" : String) ≠ "in_progress" by decide),
            ts_iff_unchanged hcur hcom
              (show ("cancelled" : String) ≠ "completed" by decide),
            ts_iff_set hcur rfl⟩
        · subst hr
          exact ⟨show "in_progress" ∈ rideStatuses by decide,
            by simpa [startedRideOf] using hreq,
            ts_iff_unchanged hcur hacc
              (show ("in_progress" : String) ≠ "accepted" by decide),
            ts_iff_set hcur rfl,
            ts_iff_unchanged hcur hcom
              (show ("in_progress" : String) ≠ "completed" by decide),
            ts_iff_unchanged hcur hcanc
              (show ("in_progress" : String) ≠ "cancelled" by decide)⟩
        · subst hr
          exact ⟨show "completed" ∈ rideStatuses by decide,
            by simpa [completedRideOf] using hreq,
            ts_iff_unchanged hcur hacc
              (show ("completed" : String) ≠ "accepted" by decide),
            ts_iff_unchanged hcur hsta
              (show ("completed" : String) ≠ "in_progress" by decide),
            ts_iff_set hcur rfl,
            ts_iff_unchanged hcur hcanc
              (show ("completed" : String) ≠ "cancelled" by decide)⟩
        · subst hr
          exact ⟨show "cancelled" ∈ rideStatuses by decide,
            by simpa [cancelledRideOf] using hreq,
            ts_iff_unchanged hcur hacc
              (show ("cancelled" : String) ≠ "accepted" by decide),
            ts_iff_unchanged hcur hsta
              (show ("cancelled" : String) ≠ "in_progress" by decide),
            ts_iff_unchanged hcur hcom
              (show ("cancelled" : String) ≠ "completed" by decide),
            ts_iff_set hcur rfl⟩

/-- Trace for the C2 witness: request at 5, accept at 6, start at 7. -/
def c2Trace : List (Nat × Op) :=
  [(5, Op.createRide (payloadP 1)), (6, Op.acceptRide 1 9),
   (7, Op.startRide 1)]

/-- Witness for C2 on the trace that requests, accepts and starts a
ride. -/
theorem C2_witness :
    (startedRideOf (acceptedRideOf (newRideOf initStore 5 (payloadP 1)) 6 9)
        7).status ∈ rideStatuses ∧
    (startedRideOf (acceptedRideOf (newRideOf initStore 5 (payloadP 1)) 6 9)
        7).requestedAt ≠ none ∧
    ((startedRideOf (acceptedRideOf (newRideOf initStore 5 (payloadP 1)) 6 9)
        7).acceptedAt ≠ none ↔ EverStatus c2Trace 1 "accepted") ∧
    ((startedRideOf (acceptedRideOf (newRideOf initStore 5 (payloadP 1)) 6 9)
        7).startedAt ≠ none ↔ EverStatus c2Trace 1 "in_progress") ∧
    ((startedRideOf (acceptedRideOf (newRideOf initStore 5 (payloadP 1)) 6 9)
        7).completedAt ≠ none ↔ EverStatus c2Trace 1 "completed") ∧
    ((startedRideOf (acceptedRideOf (newRideOf initStore 5 (payloadP 1)) 6 9)
        7).cancelledAt ≠ none ↔ EverStatus c2Trace 1 "cancelled") :=
  C2_status_enum_and_timestamp_history c2Trace 1
    (startedRideOf (acceptedRideOf (newRideOf initStore 5 (payloadP 1)) 6 9) 7)
    rfl

/-! ### Claim C8: ride history query -/

theorem byRequestedDesc_trans : ∀ (a b c : Ride),
    byRequestedDesc a b → byRequestedDesc b c → byRequestedDesc a c := by
  intro a b c hab hbc
  simp only [byRequestedDesc, decide_eq_true_eq] at hab hbc ⊢
  omega

theorem byRequestedDesc_total : ∀ (a b : Ride),
    byRequestedDesc a b || byRequestedDesc b a := by
  intro a b
  simp only [byRequestedDesc]
  rcases Nat.le_total (requestedKey b) (requestedKey a) with h | h <;>
    simp [h]

/-- Claim C8 (functional_correctness).  `getUserRides(U, L)` returns
exactly the stored rides in which `U` is passenger or driver — up to
truncation — sorted by requested time descending and cut to the first
`L` elements: the result together with some rest is a permutation of
the filtered rides, the result is sorted descending, every dropped ride
has a key no larger than every kept one, and the length is
`min L (number of U's rides)`.  (`getUserRides` is a pure function of
the store — the embedding types it without any state output, matching
the read-only query of the source; the callers' default for `L` is
10.) -/
theorem C8_getUserRides_spec (s : Store) (uid limit : Nat) :
    ∃ rest : List Ride,
      ((valuesA s.rides).filter (userParticipates uid)).Perm
        (getUserRides s uid limit ++ rest) ∧
      List.Pairwise (fun a b => requestedKey b ≤ requestedKey a)
        (getUserRides s uid limit) ∧
      (∀ a ∈ getUserRides s uid limit, ∀ b ∈ rest,
        requestedKey b ≤ requestedKey a) ∧
      (getUserRides s uid limit).length =
        min limit ((valuesA s.rides).filter (userParticipates uid)).length ∧
      (∀ r ∈ getUserRides s uid limit,
        r.passengerId = some uid ∨ r.driverId = some uid) := by
  have hperm : List.mergeSort
      ((valuesA s.rides).filter (userParticipates uid)) byRequestedDesc |>.Perm
      ((valuesA s.rides).filter (userParticipates uid)) :=
    List.mergeSort_perm _ _
  have hsorted : (List.mergeSort
      ((valuesA s.rides).filter (userParticipates uid))
      byRequestedDesc).Pairwise (fun a b => byRequestedDesc a b) :=
    List.sorted_mergeSort byRequestedDesc_trans byRequestedDesc_total _
  have hdef : getUserRides s uid limit =
      (List.mergeSort ((valuesA s.rides).filter (userParticipates uid))
        byRequestedDesc).take limit := rfl
  have hsplit : getUserRides s uid limit ++
      (List.mergeSort ((valuesA s.rides).filter (userParticipates uid))
        byRequestedDesc).drop limit =
      List.mergeSort ((valuesA s.rides).filter (userParticipates uid))
        byRequestedDesc := by
    rw [hdef]
    exact List.take_append_drop limit _
  refine ⟨(List.mergeSort ((valuesA s.rides).filter (userParticipates uid))
    byRequestedDesc).drop limit, ?_, ?_, ?_, ?_, ?_⟩
  · have h1 := hperm.symm
    rw [← hsplit] at h1
    exact h1
  · have hsub : (getUserRides s uid limit).Sublist
        (List.mergeSort ((valuesA s.rides).filter (userParticipates uid))
          byRequestedDesc) := by
      rw [hdef]
      exact List.take_sublist _ _
    refine (hsorted.sublist hsub).imp ?_
    intro a b hab
    simpa [byRequestedDesc] using hab
  · have happ : (getUserRides s uid limit ++
        (List.mergeSort ((valuesA s.rides).filter (userParticipates uid))
          byRequestedDesc).drop limit).Pairwise
        (fun a b => byRequestedDesc a b) := by
      rw [hsplit]
      exact hsorted
    intro a ha b hb
    have := (List.pairwise_append.mp happ).2.2 a ha b hb
    simpa [byRequestedDesc] using this
  · rw [hdef, List.length_take, hperm.length_eq]
  · intro r hr
    have hrm : r ∈ List.mergeSort
        ((valuesA s.rides).filter (userParticipates uid)) byRequestedDesc := by
      rw [hdef] at hr
      exact List.mem_of_mem_take hr
    have hrf : r ∈ (valuesA s.rides).filter (userParticipates uid) :=
      hperm.mem_iff.mp hrm
    have hb := List.of_mem_filter hrf
    simpa [userParticipates] using hb

/-- Witness store for C8: two rides of user 1 (one as passenger, one as
driver) and one unrelated ride of passenger 2. -/
def c8Store : Store :=
  runOps [(5, Op.createRide (payloadP 1)), (9, Op.createRide (payloadP 2)),
          (11, Op.acceptRide 2 1), (12, Op.startRide 2),
          (13, Op.completeRide 2)] initStore

/-- Witness for C8 at a concrete store and limit. -/
theorem C8_witness :
    ∃ rest : List Ride,
      ((valuesA c8Store.rides).filter (userParticipates 1)).Perm
        (getUserRides c8Store 1 1 ++ rest) ∧
      List.Pairwise (fun a b => requestedKey b ≤ requestedKey a)
        (getUserRides c8Store 1 1) ∧
      (∀ a ∈ getUserRides c8Store 1 1, ∀ b ∈ rest,
        requestedKey b ≤ requestedKey a) ∧
      (getUserRides c8Store 1 1).length =
        min 1 ((valuesA c8Store.rides).filter (userParticipates 1)).length ∧
      (∀ r ∈ getUserRides c8Store 1 1,
        r.passengerId = some 1 ∨ r.driverId = some 1) :=
  C8_getUserRides_spec c8Store 1 1

end SimpleMove
